import Mathlib

/-!
Verification development for the lemon-chess rules engine.

The definitions below are a shallow embedding of the Rust sources:
`src/game/bit_board.rs`, `src/game/piece.rs`, `src/game/color.rs`,
`src/game/position.rs`, `src/game/chess_board.rs`, `src/game/state.rs`,
`src/models/move_models.rs`, `src/error.rs` and `src/entities/session.rs`.

Conventions of the embedding:
* `u64` bitboards are natural numbers kept below `2 ^ 64`; the bit of
  square `i` is bit `i` of the word (A1 = 0 .. H8 = 63).
* `u8` arithmetic that can wrap in the source (release-profile
  `wrapping_sub`, underflow of `-`) is modelled with explicit
  `(x + 256 - k) % 256` style computations.
* Array indexing that can be out of bounds in the source (a Rust panic in
  every build profile) is modelled in the `Option` monad: `none` is a
  panic.  Fallible functions return `Except GameError` inside that
  `Option` layer (`PRes`).
* Definitions whose doc comment starts with `Modelled from the spec:`
  correspond to code of the repository that the `src/` snapshot does not
  contain (only its callers do); they follow the specification text.
-/

namespace LemonChess

/-- Errors of the game engine (src/game/error.rs). -/
inductive GameError where
  | AiError : String → GameError
  | DecodingError : String → GameError
  | EncodingError : String → GameError
  | ParseError : String → GameError
  | ValidationError : String → GameError
deriving DecidableEq, Repr

deriving instance DecidableEq for Except

/-- Result type of the embedding: the outer `Option` models a Rust panic
(`none`), the inner `Except` models `Result<_, GameError>`. -/
abbrev PRes (α : Type) := Option (Except GameError α)

/-- Bind for `PRes`: propagate panics and errors. -/
def pbind {α β : Type} (x : PRes α) (f : α → PRes β) : PRes β :=
  match x with
  | none => none
  | some (.error e) => some (.error e)
  | some (.ok a) => f a

/-- Map over the success value of a `PRes`. -/
def pmap {α β : Type} (f : α → β) (x : PRes α) : PRes β :=
  match x with
  | none => none
  | some (.error e) => some (.error e)
  | some (.ok a) => some (.ok (f a))

/-- A 64-bit bitboard word (`BitBoard(pub u64)`), as a natural number
below `2 ^ 64`. -/
abbrev BB := Nat

/-- `BitBoard::get_bit`: test a bit, `false` for indices outside 0..63. -/
def getBit (b : BB) (index : Nat) : Bool :=
  if 64 ≤ index then false else b.testBit index

/-- `BitBoard::set_bit`: set a bit, no-op for indices outside 0..63. -/
def setBit (b : BB) (index : Nat) : BB :=
  if 64 ≤ index then b else b ||| 2 ^ index

/-- `BitBoard::clear_bit`: clear a bit, no-op for indices outside 0..63
(`self.0 &= !(1 << index)` on a `u64`). -/
def clearBit (b : BB) (index : Nat) : BB :=
  if 64 ≤ index then b else b &&& ((2 ^ 64 - 1) ^^^ 2 ^ index)

/-- `BitBoard::get_bits`: the indices of all set bits, ascending. -/
def getBits (b : BB) : List Nat :=
  (List.range 64).filter (fun i => b.testBit i)

/-- Loop body of `BitBoard::populate_up`: `current_index` walks upward in
steps of 8, each iteration first checks the 0..63 bound, then sets the
square and stops after a blocker. -/
def populateUpGo (b : BB) (cur : Nat) (steps : Nat) (block : BB) : BB :=
  match steps with
  | 0 => b
  | s + 1 =>
    if 64 ≤ cur then b
    else
      let b1 := setBit b cur
      if getBit block cur then b1 else populateUpGo b1 (cur + 8) s block

/-- `BitBoard::populate_up`. -/
def populateUp (b : BB) (index : Nat) (steps : Nat) (block : BB) : BB :=
  populateUpGo b (index + 8) steps block

/-- Loop body of `BitBoard::populate_down` (`wrapping_sub(8)` on `u8`). -/
def populateDownGo (b : BB) (cur : Nat) (steps : Nat) (block : BB) : BB :=
  match steps with
  | 0 => b
  | s + 1 =>
    if 64 ≤ cur then b
    else
      let b1 := setBit b cur
      if getBit block cur then b1
      else populateDownGo b1 ((cur + 248) % 256) s block

/-- `BitBoard::populate_down`. -/
def populateDown (b : BB) (index : Nat) (steps : Nat) (block : BB) : BB :=
  populateDownGo b ((index + 248) % 256) steps block

/-- Loop body of `BitBoard::populate_left`: note the source has no 0..63
bound check here; it sets the square first and stops after a blocker or on
file 0 (`current_index % 8 == 0`). -/
def populateLeftGo (b : BB) (cur : Nat) (steps : Nat) (block : BB) : BB :=
  match steps with
  | 0 => b
  | s + 1 =>
    let b1 := setBit b cur
    if getBit block cur || cur % 8 == 0 then b1
    else populateLeftGo b1 ((cur + 255) % 256) s block

/-- `BitBoard::populate_left` (`wrapping_sub(1)` on `u8`). -/
def populateLeft (b : BB) (index : Nat) (steps : Nat) (block : BB) : BB :=
  populateLeftGo b ((index + 255) % 256) steps block

/-- Loop body of `BitBoard::populate_right`: no 0..63 bound check; sets
the square, stops after a blocker or on file 7. -/
def populateRightGo (b : BB) (cur : Nat) (steps : Nat) (block : BB) : BB :=
  match steps with
  | 0 => b
  | s + 1 =>
    let b1 := setBit b cur
    if getBit block cur || cur % 8 == 7 then b1
    else populateRightGo b1 (cur + 1) s block

/-- `BitBoard::populate_right`. -/
def populateRight (b : BB) (index : Nat) (steps : Nat) (block : BB) : BB :=
  populateRightGo b (index + 1) steps block

/-- Loop body of `BitBoard::populate_up_right` (+9 per step). -/
def populateUpRightGo (b : BB) (cur : Nat) (steps : Nat) (block : BB) : BB :=
  match steps with
  | 0 => b
  | s + 1 =>
    if 64 ≤ cur then b
    else
      let b1 := setBit b cur
      if getBit block cur || cur % 8 == 7 then b1
      else populateUpRightGo b1 (cur + 9) s block

/-- `BitBoard::populate_up_right`. -/
def populateUpRight (b : BB) (index : Nat) (steps : Nat) (block : BB) : BB :=
  populateUpRightGo b (index + 9) steps block

/-- Loop body of `BitBoard::populate_up_left` (+7 per step). -/
def populateUpLeftGo (b : BB) (cur : Nat) (steps : Nat) (block : BB) : BB :=
  match steps with
  | 0 => b
  | s + 1 =>
    if 64 ≤ cur then b
    else
      let b1 := setBit b cur
      if getBit block cur || cur % 8 == 0 then b1
      else populateUpLeftGo b1 (cur + 7) s block

/-- `BitBoard::populate_up_left`. -/
def populateUpLeft (b : BB) (index : Nat) (steps : Nat) (block : BB) : BB :=
  populateUpLeftGo b (index + 7) steps block

/-- Loop body of `BitBoard::populate_down_right` (`wrapping_sub(7)`). -/
def populateDownRightGo (b : BB) (cur : Nat) (steps : Nat) (block : BB) : BB :=
  match steps with
  | 0 => b
  | s + 1 =>
    if 64 ≤ cur then b
    else
      let b1 := setBit b cur
      if getBit block cur || cur % 8 == 7 then b1
      else populateDownRightGo b1 ((cur + 249) % 256) s block

/-- `BitBoard::populate_down_right`. -/
def populateDownRight (b : BB) (index : Nat) (steps : Nat) (block : BB) : BB :=
  populateDownRightGo b ((index + 249) % 256) steps block

/-- Loop body of `BitBoard::populate_down_left` (`wrapping_sub(9)`). -/
def populateDownLeftGo (b : BB) (cur : Nat) (steps : Nat) (block : BB) : BB :=
  match steps with
  | 0 => b
  | s + 1 =>
    if 64 ≤ cur then b
    else
      let b1 := setBit b cur
      if getBit block cur || cur % 8 == 0 then b1
      else populateDownLeftGo b1 ((cur + 247) % 256) s block

/-- `BitBoard::populate_down_left`. -/
def populateDownLeft (b : BB) (index : Nat) (steps : Nat) (block : BB) : BB :=
  populateDownLeftGo b ((index + 247) % 256) steps block

/-- `BitBoard::populate_vert_hor`: up, down, left, right in source order. -/
def populateVertHor (b : BB) (index : Nat) (steps : Nat) (block : BB) : BB :=
  populateRight (populateLeft (populateDown (populateUp b index steps block)
    index steps block) index steps block) index steps block

/-- `BitBoard::populate_diag`: up-right, down-right, down-left, up-left in
source order. -/
def populateDiag (b : BB) (index : Nat) (steps : Nat) (block : BB) : BB :=
  populateUpLeft (populateDownLeft (populateDownRight
    (populateUpRight b index steps block) index steps block)
    index steps block) index steps block

/-- `BitBoard::populate_jump`: set the single square offset by
`(row, column)` if it stays on the board. -/
def populateJump (b : BB) (index : Nat) (row : Int) (column : Int) : BB :=
  let currentRow : Int := (index : Int) / 8
  let currentCol : Int := (index : Int) % 8
  let newRow := currentRow + row
  let newCol := currentCol + column
  if 0 ≤ newRow ∧ newRow ≤ 7 ∧ 0 ≤ newCol ∧ newCol ≤ 7 then
    setBit b (newRow * 8 + newCol).toNat
  else b

/-!
Spec-level ray walks (the words of spec §4.1): each walks from `cur` in
the named direction, yielding the mask of visited squares, stopping at the
first square that is set in `block` (that blocker square included), at the
board edge, or after `steps` squares.  These are the reference against
which the `populate_*` primitives are compared.
-/

/-- Walk upward from `cur`: squares `cur + 8, cur + 16, ...`. -/
def rayUpGo (cur : Nat) (steps : Nat) (block : BB) : BB :=
  match steps with
  | 0 => 0
  | s + 1 =>
    if 64 ≤ cur + 8 then 0
    else if getBit block (cur + 8) then 2 ^ (cur + 8)
    else 2 ^ (cur + 8) ||| rayUpGo (cur + 8) s block

/-- Walk downward from `cur`: squares `cur - 8, cur - 16, ...`. -/
def rayDownGo (cur : Nat) (steps : Nat) (block : BB) : BB :=
  match steps with
  | 0 => 0
  | s + 1 =>
    if cur < 8 then 0
    else if getBit block (cur - 8) then 2 ^ (cur - 8)
    else 2 ^ (cur - 8) ||| rayDownGo (cur - 8) s block

/-- Walk leftward from `cur` inside its rank; file 0 has no left
neighbour. -/
def rayLeftGo (cur : Nat) (steps : Nat) (block : BB) : BB :=
  match steps with
  | 0 => 0
  | s + 1 =>
    if cur % 8 = 0 then 0
    else if getBit block (cur - 1) then 2 ^ (cur - 1)
    else 2 ^ (cur - 1) ||| rayLeftGo (cur - 1) s block

/-- Walk rightward from `cur` inside its rank; file 7 has no right
neighbour. -/
def rayRightGo (cur : Nat) (steps : Nat) (block : BB) : BB :=
  match steps with
  | 0 => 0
  | s + 1 =>
    if cur % 8 = 7 then 0
    else if getBit block (cur + 1) then 2 ^ (cur + 1)
    else 2 ^ (cur + 1) ||| rayRightGo (cur + 1) s block

/-- Walk up-right from `cur` (+1 file, +1 rank). -/
def rayUpRightGo (cur : Nat) (steps : Nat) (block : BB) : BB :=
  match steps with
  | 0 => 0
  | s + 1 =>
    if cur % 8 = 7 ∨ 64 ≤ cur + 9 then 0
    else if getBit block (cur + 9) then 2 ^ (cur + 9)
    else 2 ^ (cur + 9) ||| rayUpRightGo (cur + 9) s block

/-- Walk up-left from `cur` (-1 file, +1 rank). -/
def rayUpLeftGo (cur : Nat) (steps : Nat) (block : BB) : BB :=
  match steps with
  | 0 => 0
  | s + 1 =>
    if cur % 8 = 0 ∨ 64 ≤ cur + 7 then 0
    else if getBit block (cur + 7) then 2 ^ (cur + 7)
    else 2 ^ (cur + 7) ||| rayUpLeftGo (cur + 7) s block

/-- Walk down-right from `cur` (+1 file, -1 rank). -/
def rayDownRightGo (cur : Nat) (steps : Nat) (block : BB) : BB :=
  match steps with
  | 0 => 0
  | s + 1 =>
    if cur % 8 = 7 ∨ cur < 8 then 0
    else if getBit block (cur - 7) then 2 ^ (cur - 7)
    else 2 ^ (cur - 7) ||| rayDownRightGo (cur - 7) s block

/-- Walk down-left from `cur` (-1 file, -1 rank). -/
def rayDownLeftGo (cur : Nat) (steps : Nat) (block : BB) : BB :=
  match steps with
  | 0 => 0
  | s + 1 =>
    if cur % 8 = 0 ∨ cur < 8 then 0
    else if getBit block (cur - 9) then 2 ^ (cur - 9)
    else 2 ^ (cur - 9) ||| rayDownLeftGo (cur - 9) s block

theorem setBit_eq_lor {b : BB} {i : Nat} (h : i < 64) :
    setBit b i = b ||| 2 ^ i := by
  simp [setBit, Nat.not_le.mpr h]

theorem rayLeftGo_file0 {cur : Nat} (h : cur % 8 = 0) (s : Nat) (block : BB) :
    rayLeftGo cur s block = 0 := by
  cases s <;> simp [rayLeftGo, h]

theorem rayRightGo_file7 {cur : Nat} (h : cur % 8 = 7) (s : Nat) (block : BB) :
    rayRightGo cur s block = 0 := by
  cases s <;> simp [rayRightGo, h]

theorem rayUpRightGo_file7 {cur : Nat} (h : cur % 8 = 7) (s : Nat) (block : BB) :
    rayUpRightGo cur s block = 0 := by
  cases s <;> simp [rayUpRightGo, h]

theorem rayUpLeftGo_file0 {cur : Nat} (h : cur % 8 = 0) (s : Nat) (block : BB) :
    rayUpLeftGo cur s block = 0 := by
  cases s <;> simp [rayUpLeftGo, h]

theorem rayDownRightGo_file7 {cur : Nat} (h : cur % 8 = 7) (s : Nat) (block : BB) :
    rayDownRightGo cur s block = 0 := by
  cases s <;> simp [rayDownRightGo, h]

theorem rayDownLeftGo_file0 {cur : Nat} (h : cur % 8 = 0) (s : Nat) (block : BB) :
    rayDownLeftGo cur s block = 0 := by
  cases s <;> simp [rayDownLeftGo, h]

theorem populateUpGo_eq (block : BB) :
    ∀ (steps : Nat) (b : BB) (cur : Nat),
      populateUpGo b (cur + 8) steps block = b ||| rayUpGo cur steps block := by
  intro steps
  induction steps with
  | zero => intro b cur; simp [populateUpGo, rayUpGo]
  | succ s ih =>
    intro b cur
    by_cases h : 64 ≤ cur + 8
    · simp [populateUpGo, rayUpGo, h]
    · by_cases hb : getBit block (cur + 8)
      · simp [populateUpGo, rayUpGo, h, hb,
          setBit_eq_lor (Nat.not_le.mp h)]
      · have ihx := ih (setBit b (cur + 8)) (cur + 8)
        simp only [populateUpGo, rayUpGo, if_neg h, hb, Bool.false_eq_true,
          if_false]
        rw [ihx, setBit_eq_lor (Nat.not_le.mp h), Nat.lor_assoc]

theorem populateDownGo_eq (block : BB) :
    ∀ (steps : Nat) (b : BB) (cur : Nat), cur < 64 →
      populateDownGo b ((cur + 248) % 256) steps block
        = b ||| rayDownGo cur steps block := by
  intro steps
  induction steps with
  | zero => intro b cur _; simp [populateDownGo, rayDownGo]
  | succ s ih =>
    intro b cur hcur
    by_cases h : cur < 8
    · have harg : (cur + 248) % 256 = cur + 248 := by omega
      have h64 : 64 ≤ cur + 248 := by omega
      simp [populateDownGo, rayDownGo, harg, h64, h]
    · have harg : (cur + 248) % 256 = cur - 8 := by omega
      have hlt : cur - 8 < 64 := by omega
      rw [harg]
      by_cases hb : getBit block (cur - 8)
      · simp [populateDownGo, rayDownGo, Nat.not_le.mpr hlt, h, hb,
          setBit_eq_lor hlt]
      · have harg2 : (cur - 8 + 248) % 256 = ((cur - 8) + 248) % 256 := rfl
        have ihx := ih (setBit b (cur - 8)) (cur - 8) hlt
        simp only [populateDownGo, rayDownGo, if_neg (Nat.not_le.mpr hlt),
          hb, Bool.false_eq_true, if_false, if_neg h]
        rw [ihx, setBit_eq_lor hlt, Nat.lor_assoc]

theorem populateLeftGo_eq (block : BB) :
    ∀ (steps : Nat) (b : BB) (cur : Nat), cur < 64 → cur % 8 ≠ 0 →
      populateLeftGo b ((cur + 255) % 256) steps block
        = b ||| rayLeftGo cur steps block := by
  intro steps
  induction steps with
  | zero => intro b cur _ _; simp [populateLeftGo, rayLeftGo]
  | succ s ih =>
    intro b cur hcur hf
    have harg : (cur + 255) % 256 = cur - 1 := by omega
    have hlt : cur - 1 < 64 := by omega
    rw [harg]
    by_cases hb : getBit block (cur - 1)
    · simp [populateLeftGo, rayLeftGo, hf, hb, setBit_eq_lor hlt]
    · by_cases hz : (cur - 1) % 8 = 0
      · simp [populateLeftGo, rayLeftGo, hf, hb, hz, setBit_eq_lor hlt,
          rayLeftGo_file0 hz]
      · have ihx := ih (setBit b (cur - 1)) (cur - 1) hlt hz
        simp only [populateLeftGo, rayLeftGo, hb, Bool.false_eq_true,
          Bool.false_or, if_neg hf]
        have hz2 : ((cur - 1) % 8 == 0) = false := by
          simp [hz]
        rw [hz2]
        simp only [if_false]
        rw [ihx, setBit_eq_lor hlt, Nat.lor_assoc]
        simp

theorem populateRightGo_eq (block : BB) :
    ∀ (steps : Nat) (b : BB) (cur : Nat), cur < 64 → cur % 8 ≠ 7 →
      populateRightGo b (cur + 1) steps block
        = b ||| rayRightGo cur steps block := by
  intro steps
  induction steps with
  | zero => intro b cur _ _; simp [populateRightGo, rayRightGo]
  | succ s ih =>
    intro b cur hcur hf
    have hlt : cur + 1 < 64 := by omega
    by_cases hb : getBit block (cur + 1)
    · simp [populateRightGo, rayRightGo, hf, hb, setBit_eq_lor hlt]
    · by_cases hz : (cur + 1) % 8 = 7
      · simp [populateRightGo, rayRightGo, hf, hb, hz, setBit_eq_lor hlt,
          rayRightGo_file7 hz]
      · have ihx := ih (setBit b (cur + 1)) (cur + 1) hlt hz
        simp only [populateRightGo, rayRightGo, hb, Bool.false_eq_true,
          Bool.false_or, if_neg hf]
        have hz2 : ((cur + 1) % 8 == 7) = false := by simp [hz]
        rw [hz2]
        simp only [if_false]
        rw [ihx, setBit_eq_lor hlt, Nat.lor_assoc]
        simp

theorem populateUpRightGo_eq (block : BB) :
    ∀ (steps : Nat) (b : BB) (cur : Nat), cur < 64 → cur % 8 ≠ 7 →
      populateUpRightGo b (cur + 9) steps block
        = b ||| rayUpRightGo cur steps block := by
  intro steps
  induction steps with
  | zero => intro b cur _ _; simp [populateUpRightGo, rayUpRightGo]
  | succ s ih =>
    intro b cur hcur hf
    by_cases h : 64 ≤ cur + 9
    · simp [populateUpRightGo, rayUpRightGo, h, hf]
    · have hlt : cur + 9 < 64 := Nat.not_le.mp h
      by_cases hb : getBit block (cur + 9)
      · simp [populateUpRightGo, rayUpRightGo, h, hf, hb, setBit_eq_lor hlt]
      · by_cases hz : (cur + 9) % 8 = 7
        · simp [populateUpRightGo, rayUpRightGo, h, hf, hb, hz,
            setBit_eq_lor hlt, rayUpRightGo_file7 hz]
        · have ihx := ih (setBit b (cur + 9)) (cur + 9) hlt hz
          simp only [populateUpRightGo, rayUpRightGo, if_neg h, hb,
            Bool.false_eq_true, Bool.false_or]
          have hor : ¬(cur % 8 = 7 ∨ 64 ≤ cur + 9) := by
            push_neg; exact ⟨hf, Nat.not_le.mp h⟩
          rw [if_neg hor]
          have hz2 : ((cur + 9) % 8 == 7) = false := by simp [hz]
          rw [hz2]
          simp only [if_false]
          rw [ihx, setBit_eq_lor hlt, Nat.lor_assoc]
          simp

theorem populateUpLeftGo_eq (block : BB) :
    ∀ (steps : Nat) (b : BB) (cur : Nat), cur < 64 → cur % 8 ≠ 0 →
      populateUpLeftGo b (cur + 7) steps block
        = b ||| rayUpLeftGo cur steps block := by
  intro steps
  induction steps with
  | zero => intro b cur _ _; simp [populateUpLeftGo, rayUpLeftGo]
  | succ s ih =>
    intro b cur hcur hf
    by_cases h : 64 ≤ cur + 7
    · simp [populateUpLeftGo, rayUpLeftGo, h, hf]
    · have hlt : cur + 7 < 64 := Nat.not_le.mp h
      by_cases hb : getBit block (cur + 7)
      · simp [populateUpLeftGo, rayUpLeftGo, h, hf, hb, setBit_eq_lor hlt]
      · by_cases hz : (cur + 7) % 8 = 0
        · simp [populateUpLeftGo, rayUpLeftGo, h, hf, hb, hz,
            setBit_eq_lor hlt, rayUpLeftGo_file0 hz]
        · have ihx := ih (setBit b (cur + 7)) (cur + 7) hlt hz
          simp only [populateUpLeftGo, rayUpLeftGo, if_neg h, hb,
            Bool.false_eq_true, Bool.false_or]
          have hor : ¬(cur % 8 = 0 ∨ 64 ≤ cur + 7) := by
            push_neg; exact ⟨hf, Nat.not_le.mp h⟩
          rw [if_neg hor]
          have hz2 : ((cur + 7) % 8 == 0) = false := by simp [hz]
          rw [hz2]
          simp only [if_false]
          rw [ihx, setBit_eq_lor hlt, Nat.lor_assoc]
          simp

theorem populateDownRightGo_eq (block : BB) :
    ∀ (steps : Nat) (b : BB) (cur : Nat), cur < 64 → cur % 8 ≠ 7 →
      populateDownRightGo b ((cur + 249) % 256) steps block
        = b ||| rayDownRightGo cur steps block := by
  intro steps
  induction steps with
  | zero => intro b cur _ _; simp [populateDownRightGo, rayDownRightGo]
  | succ s ih =>
    intro b cur hcur hf
    by_cases h : cur < 8
    · have harg : (cur + 249) % 256 = cur + 249 := by omega
      have h64 : 64 ≤ cur + 249 := by omega
      simp [populateDownRightGo, rayDownRightGo, harg, h64, h]
    · have harg : (cur + 249) % 256 = cur - 7 := by omega
      have hlt : cur - 7 < 64 := by omega
      rw [harg]
      by_cases hb : getBit block (cur - 7)
      · simp [populateDownRightGo, rayDownRightGo, Nat.not_le.mpr hlt, h,
          hf, hb, setBit_eq_lor hlt]
      · by_cases hz : (cur - 7) % 8 = 7
        · simp [populateDownRightGo, rayDownRightGo, Nat.not_le.mpr hlt, h,
            hf, hb, hz, setBit_eq_lor hlt, rayDownRightGo_file7 hz]
        · have ihx := ih (setBit b (cur - 7)) (cur - 7) hlt hz
          simp only [populateDownRightGo, rayDownRightGo,
            if_neg (Nat.not_le.mpr hlt), hb, Bool.false_eq_true,
            Bool.false_or]
          have hor : ¬(cur % 8 = 7 ∨ cur < 8) := by push_neg; exact ⟨hf, by omega⟩
          rw [if_neg hor]
          have hz2 : ((cur - 7) % 8 == 7) = false := by simp [hz]
          rw [hz2]
          simp only [if_false]
          rw [ihx, setBit_eq_lor hlt, Nat.lor_assoc]
          simp

theorem populateDownLeftGo_eq (block : BB) :
    ∀ (steps : Nat) (b : BB) (cur : Nat), cur < 64 → cur % 8 ≠ 0 →
      populateDownLeftGo b ((cur + 247) % 256) steps block
        = b ||| rayDownLeftGo cur steps block := by
  intro steps
  induction steps with
  | zero => intro b cur _ _; simp [populateDownLeftGo, rayDownLeftGo]
  | succ s ih =>
    intro b cur hcur hf
    by_cases h : cur < 8
    · have harg : (cur + 247) % 256 = cur + 247 := by omega
      have h64 : 64 ≤ cur + 247 := by omega
      simp [populateDownLeftGo, rayDownLeftGo, harg, h64, h]
    · have harg : (cur + 247) % 256 = cur - 9 := by omega
      have hlt : cur - 9 < 64 := by omega
      rw [harg]
      by_cases hb : getBit block (cur - 9)
      · simp [populateDownLeftGo, rayDownLeftGo, Nat.not_le.mpr hlt, h,
          hf, hb, setBit_eq_lor hlt]
      · by_cases hz : (cur - 9) % 8 = 0
        · simp [populateDownLeftGo, rayDownLeftGo, Nat.not_le.mpr hlt, h,
            hf, hb, hz, setBit_eq_lor hlt, rayDownLeftGo_file0 hz]
        · have ihx := ih (setBit b (cur - 9)) (cur - 9) hlt hz
          simp only [populateDownLeftGo, rayDownLeftGo,
            if_neg (Nat.not_le.mpr hlt), hb, Bool.false_eq_true,
            Bool.false_or]
          have hor : ¬(cur % 8 = 0 ∨ cur < 8) := by push_neg; exact ⟨hf, by omega⟩
          rw [if_neg hor]
          have hz2 : ((cur - 9) % 8 == 0) = false := by simp [hz]
          rw [hz2]
          simp only [if_false]
          rw [ihx, setBit_eq_lor hlt, Nat.lor_assoc]
          simp

/-- C8 counterexample: the claim, as stated, fails at origin 7 (square
H1).  Walking right from H1 leaves the board at once, so the spec-level
walk sets no squares, but `populate_right(7, 8, 0)` sets squares 8..15
(the whole second rank): the primitive does not stop at the board edge
when the origin itself is on file 7. -/
theorem c8_ray_fill_edge_counterexample :
    populateRight 0 7 8 0 = 65280 ∧ rayRightGo 7 8 0 = 0 ∧
      populateRight 0 7 8 0 ≠ 0 ||| rayRightGo 7 8 0 := by
  refine ⟨by decide, by decide, by decide⟩

/-- C8 (amended): each of the eight ray-fill primitives sets exactly the
squares of the spec-level walk from the origin in its direction (stopping
at the first blocker inclusive, at the board edge, or after `steps`
squares), for every on-board origin whose file admits a first step in the
horizontal component of the direction: unconditionally for up and down,
file ≥ 1 for the left-moving fills, file ≤ 6 for the right-moving fills.
From an origin on the excluded edge file the left/right/diagonal fills
wrap around to an adjacent rank instead of stopping. -/
theorem c8_ray_fill_spec_restricted :
    (∀ (b : BB) (origin steps block : Nat), origin < 64 →
        populateUp b origin steps block = b ||| rayUpGo origin steps block)
  ∧ (∀ (b : BB) (origin steps block : Nat), origin < 64 →
        populateDown b origin steps block = b ||| rayDownGo origin steps block)
  ∧ (∀ (b : BB) (origin steps block : Nat), origin < 64 → origin % 8 ≠ 0 →
        populateLeft b origin steps block = b ||| rayLeftGo origin steps block)
  ∧ (∀ (b : BB) (origin steps block : Nat), origin < 64 → origin % 8 ≠ 7 →
        populateRight b origin steps block = b ||| rayRightGo origin steps block)
  ∧ (∀ (b : BB) (origin steps block : Nat), origin < 64 → origin % 8 ≠ 7 →
        populateUpRight b origin steps block
          = b ||| rayUpRightGo origin steps block)
  ∧ (∀ (b : BB) (origin steps block : Nat), origin < 64 → origin % 8 ≠ 0 →
        populateUpLeft b origin steps block
          = b ||| rayUpLeftGo origin steps block)
  ∧ (∀ (b : BB) (origin steps block : Nat), origin < 64 → origin % 8 ≠ 7 →
        populateDownRight b origin steps block
          = b ||| rayDownRightGo origin steps block)
  ∧ (∀ (b : BB) (origin steps block : Nat), origin < 64 → origin % 8 ≠ 0 →
        populateDownLeft b origin steps block
          = b ||| rayDownLeftGo origin steps block) := by
  refine ⟨?_, ?_, ?_, ?_, ?_, ?_, ?_, ?_⟩
  · intro b o s m _; exact populateUpGo_eq m s b o
  · intro b o s m h; exact populateDownGo_eq m s b o h
  · intro b o s m h hf; exact populateLeftGo_eq m s b o h hf
  · intro b o s m h hf; exact populateRightGo_eq m s b o h hf
  · intro b o s m h hf; exact populateUpRightGo_eq m s b o h hf
  · intro b o s m h hf; exact populateUpLeftGo_eq m s b o h hf
  · intro b o s m h hf; exact populateDownRightGo_eq m s b o h hf
  · intro b o s m h hf; exact populateDownLeftGo_eq m s b o h hf

/-- Witness for C8: the amended theorem instantiated at concrete inputs,
one per direction, with every hypothesis discharged. -/
theorem c8_ray_fill_spec_restricted_witness :
    ((12 : Nat) < 64 ∧ (12 : Nat) % 8 ≠ 0 ∧ (12 : Nat) % 8 ≠ 7)
  ∧ populateUp 0 12 7 129 = 0 ||| rayUpGo 12 7 129
  ∧ populateDown 0 12 7 129 = 0 ||| rayDownGo 12 7 129
  ∧ populateLeft 0 12 7 129 = 0 ||| rayLeftGo 12 7 129
  ∧ populateRight 0 12 7 129 = 0 ||| rayRightGo 12 7 129
  ∧ populateUpRight 0 12 7 129 = 0 ||| rayUpRightGo 12 7 129
  ∧ populateUpLeft 0 12 7 129 = 0 ||| rayUpLeftGo 12 7 129
  ∧ populateDownRight 0 12 7 129 = 0 ||| rayDownRightGo 12 7 129
  ∧ populateDownLeft 0 12 7 129 = 0 ||| rayDownLeftGo 12 7 129 :=
  ⟨⟨by decide, by decide, by decide⟩,
    c8_ray_fill_spec_restricted.1 0 12 7 129 (by decide),
    c8_ray_fill_spec_restricted.2.1 0 12 7 129 (by decide),
    c8_ray_fill_spec_restricted.2.2.1 0 12 7 129 (by decide) (by decide),
    c8_ray_fill_spec_restricted.2.2.2.1 0 12 7 129 (by decide) (by decide),
    c8_ray_fill_spec_restricted.2.2.2.2.1 0 12 7 129 (by decide) (by decide),
    c8_ray_fill_spec_restricted.2.2.2.2.2.1 0 12 7 129 (by decide)
      (by decide),
    c8_ray_fill_spec_restricted.2.2.2.2.2.2.1 0 12 7 129 (by decide)
      (by decide),
    c8_ray_fill_spec_restricted.2.2.2.2.2.2.2 0 12 7 129 (by decide)
      (by decide)⟩

/-- C9: evaluation of the code at the failing input.  The claim says that
`populate_left` from a file-0 origin sets no squares, but from origin 8
(square A2) with one step and an empty block mask the code sets square 7
(H1): `current_index` wraps below the a-file to the previous rank.  (The
`populate_up` half of the claim does hold; the `populate_left` half is
the bug.) -/
theorem c9_populate_left_file0_eval :
    populateLeft 0 8 1 0 = 128 ∧ populateLeft 0 8 1 0 ≠ 0 := by
  refine ⟨by decide, by decide⟩

/-- Piece kinds with their `usize` discriminants 0..6
(src/game/piece.rs). -/
inductive Piece where
  | PAWN
  | BISHOP
  | KNIGHT
  | ROOK
  | QUEEN
  | KING
  | NONE
deriving DecidableEq, Repr

/-- The discriminant of a piece (`piece as usize`). -/
def Piece.idx : Piece → Nat
  | .PAWN => 0
  | .BISHOP => 1
  | .KNIGHT => 2
  | .ROOK => 3
  | .QUEEN => 4
  | .KING => 5
  | .NONE => 6

/-- Conversion `From<usize> for Piece`. -/
def pieceFrom (number : Nat) : Piece :=
  match number with
  | 0 => .PAWN
  | 1 => .BISHOP
  | 2 => .KNIGHT
  | 3 => .ROOK
  | 4 => .QUEEN
  | 5 => .KING
  | _ => .NONE

/-- Colors with their `usize` discriminants (src/game/color.rs). -/
inductive Color where
  | WHITE
  | BLACK
  | NONE
deriving DecidableEq, Repr

/-- The discriminant of a color (`color as usize`). -/
def Color.idx : Color → Nat
  | .WHITE => 0
  | .BLACK => 1
  | .NONE => 2

/-- Conversion `From<usize> for Color`. -/
def colorFrom (number : Nat) : Color :=
  match number with
  | 0 => .WHITE
  | 1 => .BLACK
  | _ => .NONE

/-- `Color::opponent_color`: black for white, white otherwise. -/
def Color.opponentColor (c : Color) : Color :=
  if c = .WHITE then .BLACK else .WHITE

/-- `Color::get_fen_letter`. -/
def Color.getFenLetter : Color → Char
  | .WHITE => 'w'
  | .BLACK => 'b'
  | .NONE => '-'

/-- ASCII lower-casing of a character (`to_ascii_lowercase`). -/
def asciiLower (c : Char) : Char :=
  if 65 ≤ c.toNat ∧ c.toNat ≤ 90 then Char.ofNat (c.toNat + 32) else c

/-- `Color::from_fen_letter`. -/
def Color.fromFenLetter (letter : Char) : Color :=
  if asciiLower letter = 'w' then .WHITE
  else if asciiLower letter = 'b' then .BLACK
  else .NONE

/-- The twelve bitboards of `ChessBoard` (src/game/chess_board.rs):
`white`/`black` are `colors[0]`/`colors[1]`, the six piece boards are
`pieces[0]`..`pieces[5]` in the order pawn, bishop, knight, rook, queen,
king. -/
structure ChessBoard where
  white : BB
  black : BB
  pawns : BB
  bishops : BB
  knights : BB
  rooks : BB
  queens : BB
  kings : BB
deriving DecidableEq, Repr

/-- Read `colors[i]`; `none` models the Rust panic on an out-of-bounds
index (the array has length 2). -/
def colorsGet? (b : ChessBoard) (i : Nat) : Option BB :=
  match i with
  | 0 => some b.white
  | 1 => some b.black
  | _ => none

/-- Write `colors[i]`; `none` models the Rust panic on an out-of-bounds
index. -/
def colorsSet? (b : ChessBoard) (i : Nat) (v : BB) : Option ChessBoard :=
  match i with
  | 0 => some { b with white := v }
  | 1 => some { b with black := v }
  | _ => none

/-- Read `pieces[i]`; `none` models the Rust panic on an out-of-bounds
index (the array has length 6). -/
def piecesGet? (b : ChessBoard) (i : Nat) : Option BB :=
  match i with
  | 0 => some b.pawns
  | 1 => some b.bishops
  | 2 => some b.knights
  | 3 => some b.rooks
  | 4 => some b.queens
  | 5 => some b.kings
  | _ => none

/-- Write `pieces[i]`; `none` models the Rust panic on an out-of-bounds
index. -/
def piecesSet? (b : ChessBoard) (i : Nat) (v : BB) : Option ChessBoard :=
  match i with
  | 0 => some { b with pawns := v }
  | 1 => some { b with bishops := v }
  | 2 => some { b with knights := v }
  | 3 => some { b with rooks := v }
  | 4 => some { b with queens := v }
  | 5 => some { b with kings := v }
  | _ => none

/-- The piece boards as a list, for the `0..6` loops of the source. -/
def piecesList (b : ChessBoard) : List BB :=
  [b.pawns, b.bishops, b.knights, b.rooks, b.queens, b.kings]

/-- `colors[color as usize]` for the in-range colors.  The source would
panic for `Color::NONE` (index 2 into a length-2 array); every use below
passes only `WHITE` or `BLACK` (in particular `opponent_color` never
returns `NONE`). -/
def colorBoard (b : ChessBoard) : Color → BB
  | .WHITE => b.white
  | .BLACK => b.black
  | .NONE => 0

/-- `Default for ChessBoard`: the standard starting position, with the
bit patterns of the source. -/
def defaultBoard : ChessBoard where
  white := 0b0000000000000000000000000000000000000000000000001111111111111111
  black := 0b1111111111111111000000000000000000000000000000000000000000000000
  pawns := 0b0000000011111111000000000000000000000000000000001111111100000000
  bishops := 0b0010010000000000000000000000000000000000000000000000000000100100
  knights := 0b0100001000000000000000000000000000000000000000000000000001000010
  rooks := 0b1000000100000000000000000000000000000000000000000000000010000001
  queens := 0b0000100000000000000000000000000000000000000000000000000000001000
  kings := 0b0001000000000000000000000000000000000000000000000000000000010000

/-- `ChessBoard::new_empty`. -/
def newEmptyBoard : ChessBoard where
  white := 0
  black := 0
  pawns := 0
  bishops := 0
  knights := 0
  rooks := 0
  queens := 0
  kings := 0

/-- `ChessBoard::validate_index`. -/
def validateIndex (index : Nat) : Except GameError Unit :=
  if 64 ≤ index then
    .error (.ValidationError ("Board address out of range."))
  else .ok ()

/-- The `0..6` first-match loop of `ChessBoard::piece_at_cell`, after
index validation. -/
def pieceAtOk (b : ChessBoard) (index : Nat) : Piece :=
  if getBit b.pawns index then .PAWN
  else if getBit b.bishops index then .BISHOP
  else if getBit b.knights index then .KNIGHT
  else if getBit b.rooks index then .ROOK
  else if getBit b.queens index then .QUEEN
  else if getBit b.kings index then .KING
  else .NONE

/-- `ChessBoard::piece_at_cell`. -/
def pieceAtCell (b : ChessBoard) (index : Nat) : Except GameError Piece :=
  match validateIndex index with
  | .error e => .error e
  | .ok _ => .ok (pieceAtOk b index)

/-- The `0..2` first-match loop of `ChessBoard::color_at_cell`, after
index validation. -/
def colorAtOk (b : ChessBoard) (index : Nat) : Color :=
  if getBit b.white index then .WHITE
  else if getBit b.black index then .BLACK
  else .NONE

/-- `ChessBoard::color_at_cell`. -/
def colorAtCell (b : ChessBoard) (index : Nat) : Except GameError Color :=
  match validateIndex index with
  | .error e => .error e
  | .ok _ => .ok (colorAtOk b index)

/-- `ChessBoard::is_cell_occupied`. -/
def isCellOccupied (b : ChessBoard) (index : Nat) : Except GameError Bool :=
  match validateIndex index with
  | .error e => .error e
  | .ok _ => .ok (getBit b.black index || getBit b.white index)

/-- `ChessBoard::place_piece`. -/
def placePiece (b : ChessBoard) (index : Nat) (piece : Piece)
    (color : Color) : Except GameError ChessBoard :=
  match validateIndex index with
  | .error e => .error e
  | .ok _ =>
    if piece = .NONE ∨ color = .NONE then
      .error (.ValidationError
        ("Unable to place undefined piece or piece with undefined color"))
    else
      match piecesGet? b piece.idx, colorsGet? b color.idx with
      | some pb, some cb =>
        match piecesSet? b piece.idx (setBit pb index) with
        | some b1 =>
          match colorsSet? b1 color.idx (setBit cb index) with
          | some b2 => .ok b2
          | none => .ok b1
        | none => .ok b
      | _, _ => .ok b

/-- `ChessBoard::mask_by_piece_and_color` (indexing is always in range at
the call sites below). -/
def maskByPieceAndColor (b : ChessBoard) (piece : Piece) (color : Color) :
    BB :=
  ((piecesList b).getD piece.idx 0) &&& colorBoard b color

/-- `Piece::get_reach_mask` (src/game/piece.rs). -/
def getReachMask (p : Piece) (index : Nat) (currentColor : Color)
    (blockMask : BB) (initialPawnMask : BB) : BB :=
  match p with
  | .PAWN =>
    let steps := if getBit initialPawnMask index then 2 else 1
    if currentColor = .WHITE then populateUp 0 index steps blockMask
    else populateDown 0 index steps blockMask
  | .BISHOP => populateDiag 0 index 7 blockMask
  | .KNIGHT =>
    populateJump (populateJump (populateJump (populateJump (populateJump
      (populateJump (populateJump (populateJump 0 index 2 1)
      index 1 2) index 2 (-1)) index 1 (-2)) index (-2) 1)
      index (-1) 2) index (-2) (-1)) index (-1) (-2)
  | .ROOK => populateVertHor 0 index 7 blockMask
  | .QUEEN => populateDiag (populateVertHor 0 index 7 blockMask) index 7
      blockMask
  | .KING => populateDiag (populateVertHor 0 index 1 blockMask) index 1
      blockMask
  | .NONE => 0

/-- Bitwise complement on the 64-bit word (`!mask` on `u64`). -/
def bbNot (b : BB) : BB := (2 ^ 64 - 1) ^^^ b

/-- `Piece::get_move_mask`. -/
def getMoveMask (reachMask : BB) (colorMasks : BB × BB) : BB :=
  reachMask &&& bbNot colorMasks.1 &&& bbNot colorMasks.2

/-- `Piece::get_attack_mask`. -/
def getAttackMask (index : Nat) (reachMask : BB) (piece : Piece)
    (currentColor : Color) (opponentMask : BB) (enPassantIndex : Nat) :
    BB :=
  if piece = .PAWN then
    let mask :=
      if currentColor = .WHITE then
        populateUpRight (populateUpLeft 0 index 1 0) index 1 0
      else
        populateDownRight (populateDownLeft 0 index 1 0) index 1 0
    mask &&& setBit opponentMask enPassantIndex
  else reachMask &&& opponentMask

/-- `Piece::get_move_and_attack_mask`. -/
def getMoveAndAttackMask (p : Piece) (index : Nat) (currentColor : Color)
    (initialPawnMask : BB) (colorMasks : BB × BB) (ep : Nat × Nat) :
    BB × BB :=
  let blockMask := colorMasks.1 ||| colorMasks.2
  let reachMask := getReachMask p index currentColor blockMask
    initialPawnMask
  let moveMask := getMoveMask reachMask colorMasks
  let opp := currentColor.opponentColor
  let attackMask := getAttackMask index reachMask p currentColor
    (if opp.idx = 0 then colorMasks.1 else colorMasks.2)
    (if opp.idx = 0 then ep.1 else ep.2)
  (moveMask, attackMask)

/-- `Piece::get_action_mask`. -/
def getActionMask (p : Piece) (index : Nat) (currentColor : Color)
    (initialPawnMask : BB) (colorMasks : BB × BB) (ep : Nat × Nat) : BB :=
  let mm := getMoveAndAttackMask p index currentColor initialPawnMask
    colorMasks ep
  mm.1 ||| mm.2

/-- `Piece::get_king_threat_masks`. -/
def getKingThreatMasks (index : Nat) (currentColor : Color) (block : BB) :
    List BB :=
  (List.range 6).map (fun pieceId =>
    let piece := pieceFrom pieceId
    let reachMask := getReachMask piece index currentColor block 0
    getAttackMask index reachMask piece currentColor (2 ^ 64 - 1) 64)

/-- Maximum of a list, as `iter().max()` (`none` on the empty list). -/
def listMax? (l : List Nat) : Option Nat :=
  l.foldl (fun acc x =>
    match acc with
    | none => some x
    | some m => some (max m x)) none

/-- Minimum of a list, as `iter().min()` (`none` on the empty list). -/
def listMin? (l : List Nat) : Option Nat :=
  l.foldl (fun acc x =>
    match acc with
    | none => some x
    | some m => some (min m x)) none

/-- `ChessBoard::get_king_position_by_color` (0 when the king is
missing). -/
def getKingPositionByColor (b : ChessBoard) (color : Color) : Nat :=
  match getBits (maskByPieceAndColor b .KING color) with
  | [] => 0
  | k :: _ => k

/-- `ChessBoard::get_king_check_positions`. -/
def getKingCheckPositions (b : ChessBoard) (color : Color) : List Nat :=
  let kingIndex := getKingPositionByColor b color
  let blockMask := b.white ||| b.black
  let threatMasks := getKingThreatMasks kingIndex color blockMask
  ((List.range 6).map (fun i =>
    getBits ((threatMasks.getD i 0) &&& ((piecesList b).getD i 0) &&&
      colorBoard b color.opponentColor))).flatten

/-- `ChessBoard::is_king_check`. -/
def isKingCheck (b : ChessBoard) (color : Color) : Bool :=
  !(getKingCheckPositions b color).isEmpty

/-- `ChessBoard::get_attack_mask_by_color`: union of the attack masks of
all pieces of that color against a full opponent mask. -/
def getAttackMaskByColor (b : ChessBoard) (color : Color) : BB :=
  let blockMask := b.white ||| b.black
  ((List.range 6).map (fun pieceId =>
    let piece := pieceFrom pieceId
    let pieceIndices :=
      getBits (((piecesList b).getD pieceId 0) &&& colorBoard b color)
    (pieceIndices.map (fun pieceIndex =>
      let reachMask := getReachMask piece pieceIndex color blockMask 0
      getAttackMask pieceIndex reachMask piece color (2 ^ 64 - 1) 64
    )).foldl (fun acc m => acc ||| m) 0)).foldl (fun acc m => acc ||| m) 0

/-- `ChessBoard::get_kingside_rook`: king index and the highest rook
index of the color, `none` when there is no rook past the king. -/
def getKingsideRook (b : ChessBoard) (color : Color) :
    Option (Nat × Nat) :=
  let kingIndex := getKingPositionByColor b color
  let rookBoard := ((piecesList b).getD Piece.ROOK.idx 0) &&&
    colorBoard b color
  match listMax? (getBits rookBoard) with
  | some rookIndex =>
    if rookIndex < kingIndex then none else some (kingIndex, rookIndex)
  | none => none

/-- `ChessBoard::get_queenside_rook`. -/
def getQueensideRook (b : ChessBoard) (color : Color) :
    Option (Nat × Nat) :=
  let kingIndex := getKingPositionByColor b color
  let rookBoard := ((piecesList b).getD Piece.ROOK.idx 0) &&&
    colorBoard b color
  match listMin? (getBits rookBoard) with
  | some rookIndex =>
    if kingIndex < rookIndex then none else some (kingIndex, rookIndex)
  | none => none

/-- `ChessBoard::can_castle_common`: the rook must reach the king, and no
cell of the rook reach mask may be attacked by the opponent. -/
def canCastleCommon (b : ChessBoard) (color : Color) (kingIndex : Nat)
    (rookIndex : Nat) : Bool :=
  let blockMask := b.white ||| b.black
  let rookReachMask := getReachMask .ROOK rookIndex color blockMask 0
  let rookInfluenceCells := getBits rookReachMask
  if !(rookInfluenceCells.contains kingIndex) then false
  else
    let opponentAttackMask := getAttackMaskByColor b color.opponentColor
    let opponentAttackIndices := getBits opponentAttackMask
    rookInfluenceCells.all (fun cell =>
      !(opponentAttackIndices.contains cell))

/-- `ChessBoard::can_castle_kingside`. -/
def canCastleKingside (b : ChessBoard) (color : Color) : Bool :=
  match getKingsideRook b color with
  | none => false
  | some (kingIndex, rookIndex) =>
    canCastleCommon b color kingIndex rookIndex

/-- `ChessBoard::can_castle_queenside`. -/
def canCastleQueenside (b : ChessBoard) (color : Color) : Bool :=
  match getQueensideRook b color with
  | none => false
  | some (kingIndex, rookIndex) =>
    canCastleCommon b color kingIndex rookIndex

/-- `ChessBoard::relocate_piece`: validates `to`, reads piece and color at
`from` (validating `from`), then moves the bits.  Indexing
`pieces[piece as usize]` with the `NONE` piece (discriminant 6) is the
out-of-bounds panic, `none`. -/
def relocatePiece (b : ChessBoard) (f t : Nat) : PRes ChessBoard :=
  match validateIndex t with
  | .error e => some (.error e)
  | .ok _ =>
    match validateIndex f with
    | .error e => some (.error e)
    | .ok _ =>
      let piece := pieceAtOk b f
      let color := colorAtOk b f
      match piecesGet? b piece.idx with
      | none => none
      | some pb =>
        match piecesSet? b piece.idx (setBit (clearBit pb f) t) with
        | none => none
        | some b1 =>
          match colorsGet? b1 color.idx with
          | none => none
          | some cb =>
            match colorsSet? b1 color.idx (setBit (clearBit cb f) t) with
            | none => none
            | some b2 => some (.ok b2)

/-- Indexing a `[u8; 2]` array (`en_passant_indices`) by a color
discriminant; all call sites pass 0 or 1. -/
def pairGet (p : Nat × Nat) (i : Nat) : Nat :=
  if i = 0 then p.1 else p.2

/-- Updating a `[u8; 2]` array at a color discriminant. -/
def pairSet (p : Nat × Nat) (i : Nat) (v : Nat) : Nat × Nat :=
  if i = 0 then (v, p.2) else (p.1, v)

/-- Indexing a `[bool; 2]` array (castling rights) by a color
discriminant; all call sites pass 0 or 1. -/
def bpairGet (p : Bool × Bool) (i : Nat) : Bool :=
  if i = 0 then p.1 else p.2

/-- Updating a `[bool; 2]` array at a color discriminant. -/
def bpairSet (p : Bool × Bool) (i : Nat) (v : Bool) : Bool × Bool :=
  if i = 0 then (v, p.2) else (p.1, v)

/-- Capture section of `ChessBoard::make_move`: clear an occupied
destination from its piece and color boards. -/
def captureStep (b : ChessBoard) (targetPiece : Piece)
    (targetColor : Color) (t : Nat) : Option ChessBoard :=
  if targetPiece ≠ Piece.NONE then
    match piecesGet? b targetPiece.idx with
    | none => none
    | some pb =>
      match piecesSet? b targetPiece.idx (clearBit pb t) with
      | none => none
      | some b1 =>
        match colorsGet? b1 targetColor.idx with
        | none => none
        | some cb => colorsSet? b1 targetColor.idx (clearBit cb t)
  else some b

/-- Piece and color update section of `ChessBoard::make_move`: move the
source bits from `f` to `t`. -/
def relocateStep (b : ChessBoard) (sourcePiece : Piece)
    (sourceColor : Color) (f t : Nat) : Option ChessBoard :=
  match piecesGet? b sourcePiece.idx with
  | none => none
  | some pb =>
    match piecesSet? b sourcePiece.idx (setBit (clearBit pb f) t) with
    | none => none
    | some b1 =>
      match colorsGet? b1 sourceColor.idx with
      | none => none
      | some cb =>
        colorsSet? b1 sourceColor.idx (setBit (clearBit cb f) t)

/-- En-passant capture section of `ChessBoard::make_move`: when a pawn
lands on the opponent en-passant target, clear the opponent pawn one rank
behind the destination (`to - 8` / `to + 8` on `u8`) and reset that
target to 64. -/
def epCaptureStep (b : ChessBoard) (sourcePiece : Piece)
    (oppColor : Color) (t : Nat) (ep : Nat × Nat) :
    Option (ChessBoard × (Nat × Nat)) :=
  if sourcePiece = Piece.PAWN ∧ t = pairGet ep oppColor.idx then
    let capturedPawnIndex :=
      match oppColor with
      | .BLACK => (t + 248) % 256
      | .WHITE => t + 8
      | .NONE => t + 8
    match piecesGet? b Piece.PAWN.idx with
    | none => none
    | some pp =>
      match piecesSet? b Piece.PAWN.idx
          (clearBit pp capturedPawnIndex) with
      | none => none
      | some b1 =>
        match colorsGet? b1 oppColor.idx with
        | none => none
        | some ob =>
          match colorsSet? b1 oppColor.idx
              (clearBit ob capturedPawnIndex) with
          | none => none
          | some b2 => some (b2, pairSet ep oppColor.idx 64)
  else some (b, ep)

/-- En-passant target update section of `ChessBoard::make_move`: a double
pawn push records the square behind the pawn, anything else clears the
mover-side target (`abs_diff` is `max - min`). -/
def epUpdateStep (sourcePiece : Piece) (sourceColor : Color) (f t : Nat)
    (ep : Nat × Nat) : Nat × Nat :=
  if sourcePiece = Piece.PAWN ∧ max t f - min t f = 16 then
    pairSet ep sourceColor.idx
      (match sourceColor with
       | .BLACK => t + 8
       | .WHITE => (t + 248) % 256
       | .NONE => (t + 248) % 256)
  else pairSet ep sourceColor.idx 64

/-- Castling-rights update section of `ChessBoard::make_move`, evaluated
on the already-moved board. -/
def rightsStep (b : ChessBoard) (sourcePiece : Piece)
    (sourceColor : Color) (f : Nat) (ksr qsr : Bool × Bool) :
    (Bool × Bool) × (Bool × Bool) :=
  let colorIndex := sourceColor.idx
  let pair1 : (Bool × Bool) × (Bool × Bool) :=
    if bpairGet ksr colorIndex then
      if sourcePiece = Piece.KING then
        (bpairSet ksr colorIndex false, bpairSet qsr colorIndex false)
      else if sourcePiece = Piece.ROOK then
        let kingIndex := getKingPositionByColor b sourceColor
        if kingIndex < f then (bpairSet ksr colorIndex false, qsr)
        else (ksr, qsr)
      else (ksr, qsr)
    else (ksr, qsr)
  let qsr2 :=
    if bpairGet pair1.2 colorIndex ∧ sourcePiece = Piece.ROOK then
      let kingIndex := getKingPositionByColor b sourceColor
      if f < kingIndex then bpairSet pair1.2 colorIndex false
      else pair1.2
    else pair1.2
  (pair1.1, qsr2)

/-- `ChessBoard::make_move`: validation, the `Ok(false)` early return for
an empty source or a same-color destination, then the capture,
relocation, en-passant and castling-rights sections above.  The result
carries the new board together with the written-back `&mut` arrays. -/
def makeMove (b : ChessBoard) (f t : Nat) (ep : Nat × Nat)
    (ksr qsr : Bool × Bool) :
    PRes (Bool × ChessBoard × (Nat × Nat) × (Bool × Bool) ×
      (Bool × Bool)) :=
  match validateIndex f with
  | .error e => some (.error e)
  | .ok _ =>
  match validateIndex t with
  | .error e => some (.error e)
  | .ok _ =>
  let sourcePiece := pieceAtOk b f
  let sourceColor := colorAtOk b f
  let targetPiece := pieceAtOk b t
  let targetColor := colorAtOk b t
  if sourcePiece = Piece.NONE ∨ targetColor = sourceColor then
    some (.ok (false, b, ep, ksr, qsr))
  else
    match captureStep b targetPiece targetColor t with
    | none => none
    | some b1 =>
    match relocateStep b1 sourcePiece sourceColor f t with
    | none => none
    | some b3 =>
    match epCaptureStep b3 sourcePiece sourceColor.opponentColor t ep with
    | none => none
    | some (b6, ep1) =>
    let ep2 := epUpdateStep sourcePiece sourceColor f t ep1
    let rights := rightsStep b6 sourcePiece sourceColor f ksr qsr
    some (.ok (true, b6, ep2, rights.1, rights.2))

/-- `ChessBoard::castle_kingside`. -/
def boardCastleKingside (b : ChessBoard) (kingIndex rookIndex : Nat) :
    PRes ChessBoard :=
  match validateIndex kingIndex with
  | .error e => some (.error e)
  | .ok _ =>
  match validateIndex rookIndex with
  | .error e => some (.error e)
  | .ok _ =>
  match colorAtCell b kingIndex with
  | .error e => some (.error e)
  | .ok color =>
    let newKingIndex : Nat :=
      match color with
      | .WHITE => 6
      | .BLACK => 62
      | .NONE => 1
    let newRookIndex := newKingIndex - 1
    pbind (relocatePiece b kingIndex newKingIndex) fun b1 =>
    relocatePiece b1 rookIndex newRookIndex

/-- `ChessBoard::castle_queenside`. -/
def boardCastleQueenside (b : ChessBoard) (kingIndex rookIndex : Nat) :
    PRes ChessBoard :=
  match validateIndex kingIndex with
  | .error e => some (.error e)
  | .ok _ =>
  match validateIndex rookIndex with
  | .error e => some (.error e)
  | .ok _ =>
  match colorAtCell b kingIndex with
  | .error e => some (.error e)
  | .ok color =>
    let newKingIndex : Nat :=
      match color with
      | .WHITE => 2
      | .BLACK => 58
      | .NONE => 1
    let newRookIndex := newKingIndex + 1
    pbind (relocatePiece b kingIndex newKingIndex) fun b1 =>
    relocatePiece b1 rookIndex newRookIndex

/-- `AvailableMoves`: location index with its target indices. -/
abbrev AvailableMoves := List (Nat × List Nat)

/-- `ChessBoard::does_move_lead_to_check`: simulate on a clone; a panic of
the inner `make_move` propagates. -/
def doesMoveLeadToCheck (b : ChessBoard) (color : Color) (f t : Nat)
    (ep : Nat × Nat) (ksr qsr : Bool × Bool) : Option Bool :=
  match makeMove b f t ep ksr qsr with
  | none => none
  | some (.error _) => some false
  | some (.ok (success, b1, _, _, _)) =>
    some (if success then isKingCheck b1 color else false)

/-- Filter of candidate targets by `does_move_lead_to_check`, preserving
order. -/
def filterTargets (b : ChessBoard) (color : Color) (f : Nat)
    (ep : Nat × Nat) (ksr qsr : Bool × Bool) :
    List Nat → Option (List Nat)
  | [] => some []
  | t :: rest =>
    match doesMoveLeadToCheck b color f t ep ksr qsr with
    | none => none
    | some leads =>
      match filterTargets b color f ep ksr qsr rest with
      | none => none
      | some l => some (if leads then l else t :: l)

/-- Loop body of `ChessBoard::generate_legal_moves`. -/
def generateLegalMovesGo (b : ChessBoard) (color : Color)
    (initialPawnMask : BB) (ep : Nat × Nat) (ksr qsr : Bool × Bool) :
    List Nat → AvailableMoves → PRes AvailableMoves
  | [], acc => some (.ok acc.reverse)
  | index :: rest, acc =>
    match pieceAtCell b index with
    | .error e => some (.error e)
    | .ok piece =>
      let actionMask := getActionMask piece index color initialPawnMask
        (b.white, b.black) ep
      let targetIndices := getBits actionMask
      match filterTargets b color index ep ksr qsr targetIndices with
      | none => none
      | some validTargets =>
        generateLegalMovesGo b color initialPawnMask ep ksr qsr rest
          ((index, validTargets) :: acc)

/-- `ChessBoard::generate_legal_moves`. -/
def generateLegalMoves (b : ChessBoard) (color : Color)
    (initialPawnMask : BB) (ep : Nat × Nat) (ksr qsr : Bool × Bool) :
    PRes AvailableMoves :=
  generateLegalMovesGo b color initialPawnMask ep ksr qsr
    (getBits (colorBoard b color)) []

theorem getBit_setBit_self {b : BB} {i : Nat} (h : i < 64) :
    getBit (setBit b i) i = true := by
  simp [getBit, setBit, Nat.not_le.mpr h, Nat.testBit_two_pow_self]

theorem getBit_setBit_ne {b : BB} {i j : Nat} (h : j ≠ i) :
    getBit (setBit b i) j = getBit b j := by
  by_cases hi : 64 ≤ i
  · simp [setBit, hi]
  · by_cases hj : 64 ≤ j
    · simp [getBit, setBit, hi, hj]
    · simp [getBit, setBit, hi, hj,
        Nat.testBit_two_pow_of_ne (fun hij => h hij.symm)]

theorem getBit_clearBit_self {b : BB} {i : Nat} :
    getBit (clearBit b i) i = false := by
  by_cases hi : 64 ≤ i
  · simp [getBit, clearBit, hi]
  · simp only [getBit, clearBit, if_neg hi, Nat.testBit_land,
      Nat.testBit_xor, Nat.testBit_two_pow_sub_one,
      Nat.testBit_two_pow_self]
    simp [Nat.not_le.mp hi]

theorem getBit_clearBit_ne {b : BB} {i j : Nat} (h : j ≠ i) :
    getBit (clearBit b i) j = getBit b j := by
  by_cases hi : 64 ≤ i
  · simp [clearBit, hi]
  · by_cases hj : 64 ≤ j
    · simp [getBit, clearBit, hi, hj]
    · simp only [getBit, clearBit, if_neg hi, if_neg hj,
        Nat.testBit_land, Nat.testBit_xor, Nat.testBit_two_pow_sub_one,
        Nat.testBit_two_pow_of_ne (fun hij => h hij.symm)]
      simp [Nat.not_le.mp hj]

/-- C7: with in-range indices, `make_move` on an empty source square or a
destination of the source color returns `Ok(false)` and leaves the twelve
bitboards, the en-passant indices and both castling-rights arrays exactly
as they were. -/
theorem c7_make_move_false_no_mutation (b : ChessBoard) (f t : Nat)
    (ep : Nat × Nat) (ksr qsr : Bool × Bool) (hf : f < 64) (ht : t < 64)
    (h : pieceAtOk b f = Piece.NONE ∨ colorAtOk b t = colorAtOk b f) :
    makeMove b f t ep ksr qsr = some (.ok (false, b, ep, ksr, qsr)) := by
  simp [makeMove, validateIndex, Nat.not_le.mpr hf, Nat.not_le.mpr ht, h]

/-- Witness for C7 at a concrete input: moving from the empty square 20
on the default board. -/
theorem c7_make_move_false_no_mutation_witness :
    ((20 : Nat) < 64 ∧ (21 : Nat) < 64 ∧
      pieceAtOk defaultBoard 20 = Piece.NONE)
  ∧ makeMove defaultBoard 20 21 (64, 64) (true, true) (true, true)
      = some (.ok (false, defaultBoard, (64, 64), (true, true),
          (true, true))) :=
  ⟨⟨by decide, by decide, by decide⟩,
    c7_make_move_false_no_mutation defaultBoard 20 21 (64, 64)
      (true, true) (true, true) (by decide) (by decide)
      (Or.inl (by decide))⟩

/-- Projection for the C4 evaluation: the en-passant pair of a successful
`make_move` result. -/
def epOfMoveResult
    (r : PRes (Bool × ChessBoard × (Nat × Nat) × (Bool × Bool) ×
      (Bool × Bool))) : Option (Nat × Nat) :=
  match r with
  | some (.ok x) => some x.2.2.1
  | _ => none

/-- C4: evaluation of the code at the failing input.  From the standard
start, the double pushes E2-E4 (12 to 28) and E7-E5 (52 to 36) leave BOTH
en-passant slots set (`targets = (20, 44)`, squares E3 and E6): a move by
one side never clears the other side's stale target unless it is an
en-passant capture, so the claimed at-most-one-non-64 invariant fails. -/
theorem c4_two_en_passant_targets_eval :
    epOfMoveResult
      (pbind (makeMove defaultBoard 12 28 (64, 64) (true, true)
          (true, true)) fun r1 =>
        makeMove r1.2.1 52 36 r1.2.2.1 r1.2.2.2.1 r1.2.2.2.2)
      = some (20, 44)
    ∧ (20 : Nat) ≠ 64 ∧ (44 : Nat) ≠ 64 := by
  refine ⟨by decide, by decide, by decide⟩

theorem captureStep_exists (b : ChessBoard) (tp : Piece) (tc : Color)
    (t : Nat) (h : tp = Piece.NONE ∨ tc ≠ Color.NONE) :
    ∃ bc, captureStep b tp tc t = some bc := by
  cases tp <;> cases tc <;>
    simp_all [captureStep, piecesGet?, piecesSet?, colorsGet?, colorsSet?,
      Piece.idx, Color.idx]

theorem relocateStep_exists (b : ChessBoard) (sp : Piece) (sc : Color)
    (f t : Nat) (hp : sp ≠ Piece.NONE) (hc : sc ≠ Color.NONE) :
    ∃ br, relocateStep b sp sc f t = some br := by
  cases sp <;> cases sc <;>
    simp_all [relocateStep, piecesGet?, piecesSet?, colorsGet?, colorsSet?,
      Piece.idx, Color.idx]

theorem epCaptureStep_black (b : ChessBoard) (t : Nat) (ep : Nat × Nat)
    (ht : t = pairGet ep Color.BLACK.idx) :
    epCaptureStep b Piece.PAWN Color.BLACK t ep
      = some ({ b with pawns := clearBit b.pawns ((t + 248) % 256), black := clearBit b.black ((t + 248) % 256) }, pairSet ep Color.BLACK.idx 64) := by
  have hcond : Piece.PAWN = Piece.PAWN ∧ t = pairGet ep Color.BLACK.idx :=
    ⟨rfl, ht⟩
  rw [epCaptureStep, if_pos hcond]
  rfl

theorem epCaptureStep_white (b : ChessBoard) (t : Nat) (ep : Nat × Nat)
    (ht : t = pairGet ep Color.WHITE.idx) :
    epCaptureStep b Piece.PAWN Color.WHITE t ep
      = some ({ b with pawns := clearBit b.pawns (t + 8), white := clearBit b.white (t + 8) }, pairSet ep Color.WHITE.idx 64) := by
  have hcond : Piece.PAWN = Piece.PAWN ∧ t = pairGet ep Color.WHITE.idx :=
    ⟨rfl, ht⟩
  rw [epCaptureStep, if_pos hcond]
  rfl

/-- The square of the pawn captured en passant, as the claim states it:
`to - 8` when white captures black, `to + 8` when black captures white. -/
def capturedSquare (capturer : Color) (t : Nat) : Nat :=
  if capturer = Color.WHITE then t - 8 else t + 8

/-- C5: whenever a pawn move lands on the opponent en-passant target, the
opponent pawn one rank behind the destination is removed from both its
piece board and its color board (not a piece on the destination square),
and the opponent en-passant target is reset to 64. -/
theorem c5_en_passant_capture (b : ChessBoard) (f t : Nat)
    (ep : Nat × Nat) (ksr qsr : Bool × Bool) (c : Color)
    (hf : f < 64) (ht : t < 64)
    (hsp : pieceAtOk b f = Piece.PAWN)
    (hsc : colorAtOk b f = c)
    (hc : c = Color.WHITE ∨ c = Color.BLACK)
    (hept : t = pairGet ep c.opponentColor.idx)
    (htc : colorAtOk b t ≠ c)
    (hwf : pieceAtOk b t = Piece.NONE ∨ colorAtOk b t ≠ Color.NONE)
    (ht8 : c = Color.WHITE → 8 ≤ t) :
    ∃ b6 ep2 ksr2 qsr2,
      makeMove b f t ep ksr qsr = some (.ok (true, b6, ep2, ksr2, qsr2))
      ∧ getBit b6.pawns (capturedSquare c t) = false
      ∧ getBit (colorBoard b6 c.opponentColor) (capturedSquare c t)
          = false
      ∧ pairGet ep2 c.opponentColor.idx = 64 := by
  have hne : ¬(pieceAtOk b f = Piece.NONE
      ∨ colorAtOk b t = colorAtOk b f) := by
    rw [not_or, hsp, hsc]
    exact ⟨by simp, htc⟩
  obtain ⟨b1, hb1⟩ := captureStep_exists b (pieceAtOk b t)
    (colorAtOk b t) t hwf
  obtain ⟨b3, hb3⟩ := relocateStep_exists b1 Piece.PAWN c f t (by simp)
    (by rcases hc with h | h <;> subst h <;> simp)
  rcases hc with h | h <;> subst h
  · -- white captures black: opponent is black, captured square is t - 8
    have hcap : (t + 248) % 256 = t - 8 := by
      have := ht8 rfl; omega
    have hopp : Color.WHITE.opponentColor = Color.BLACK := by
      simp [Color.opponentColor]
    rw [hopp] at hept
    rw [hsp, hsc] at hne
    simp only [makeMove, validateIndex, Nat.not_le.mpr hf,
      Nat.not_le.mpr ht, hsp, hsc, hopp, if_neg hne]
    simp only [hb1, hb3, epCaptureStep_black b3 t ep hept]
    refine ⟨_, _, _, _, rfl, ?_, ?_, ?_⟩
    · simp [capturedSquare, hcap, getBit_clearBit_self]
    · simp [capturedSquare, hopp, colorBoard, hcap, getBit_clearBit_self]
    · simp only [hopp, epUpdateStep, Color.idx]
      split <;> simp [pairGet, pairSet, Color.idx]
  · -- black captures white: opponent is white, captured square is t + 8
    have hopp : Color.BLACK.opponentColor = Color.WHITE := by
      simp [Color.opponentColor]
    rw [hopp] at hept
    rw [hsp, hsc] at hne
    simp only [makeMove, validateIndex, Nat.not_le.mpr hf,
      Nat.not_le.mpr ht, hsp, hsc, hopp, if_neg hne]
    simp only [hb1, hb3, epCaptureStep_white b3 t ep hept]
    refine ⟨_, _, _, _, rfl, ?_, ?_, ?_⟩
    · simp [capturedSquare, getBit_clearBit_self]
    · simp [hopp, colorBoard, capturedSquare, getBit_clearBit_self]
    · simp only [hopp, epUpdateStep, Color.idx]
      split <;> simp [pairGet, pairSet, Color.idx]

/-- Witness board for C5: a white pawn on E5 (36), a black pawn on D5
(35), black en-passant target D6 (43). -/
def epWitnessBoard : ChessBoard where
  white := 2 ^ 36
  black := 2 ^ 35
  pawns := 2 ^ 36 ||| 2 ^ 35
  bishops := 0
  knights := 0
  rooks := 0
  queens := 0
  kings := 0

/-- Witness for C5: the en-passant capture E5xD6 on the witness board. -/
theorem c5_en_passant_capture_witness :
    ((36 : Nat) < 64 ∧ (43 : Nat) < 64
      ∧ pieceAtOk epWitnessBoard 36 = Piece.PAWN
      ∧ colorAtOk epWitnessBoard 36 = Color.WHITE
      ∧ (43 : Nat) = pairGet (64, 43) Color.WHITE.opponentColor.idx
      ∧ colorAtOk epWitnessBoard 43 ≠ Color.WHITE
      ∧ (8 : Nat) ≤ 43)
  ∧ (∃ b6 ep2 ksr2 qsr2,
      makeMove epWitnessBoard 36 43 (64, 43) (true, true) (true, true)
        = some (.ok (true, b6, ep2, ksr2, qsr2))
      ∧ getBit b6.pawns (capturedSquare Color.WHITE 43) = false
      ∧ getBit (colorBoard b6 Color.WHITE.opponentColor)
          (capturedSquare Color.WHITE 43) = false
      ∧ pairGet ep2 Color.WHITE.opponentColor.idx = 64) :=
  ⟨⟨by decide, by decide, by decide, by decide, by decide, by decide,
    by decide⟩,
   c5_en_passant_capture epWitnessBoard 36 43 (64, 43) (true, true)
     (true, true) Color.WHITE (by decide) (by decide) (by decide)
     (by decide) (Or.inl rfl) (by decide) (by decide)
     (Or.inl (by decide)) (fun _ => by decide)⟩

/-- C10: `relocate_piece` is total only when the source square is
occupied.  With in-range indices and a piece (with its color) at `from`
it moves the piece and color bits and returns `Ok`; an out-of-range index
yields a validation error; an empty in-range `from` square makes the code
index `pieces[Piece::NONE as usize]` (index 6 of a 6-element array),
which is a panic, not an error. -/
theorem c10_relocate_piece_totality :
    (∀ (b : ChessBoard) (f t : Nat), f < 64 → t < 64 →
       pieceAtOk b f ≠ Piece.NONE → colorAtOk b f ≠ Color.NONE →
       ∃ b2, relocatePiece b f t = some (.ok b2)
         ∧ getBit ((piecesList b2).getD (pieceAtOk b f).idx 0) t = true
         ∧ (f ≠ t →
             getBit ((piecesList b2).getD (pieceAtOk b f).idx 0) f
               = false)
         ∧ getBit (colorBoard b2 (colorAtOk b f)) t = true
         ∧ (f ≠ t → getBit (colorBoard b2 (colorAtOk b f)) f = false))
  ∧ (∀ (b : ChessBoard) (f t : Nat), 64 ≤ f ∨ 64 ≤ t →
       relocatePiece b f t
         = some (.error
             (GameError.ValidationError ("Board address out of range."))))
  ∧ (∀ (b : ChessBoard) (f t : Nat), f < 64 → t < 64 →
       pieceAtOk b f = Piece.NONE → relocatePiece b f t = none) := by
  refine ⟨?_, ?_, ?_⟩
  · intro b f t hf ht hp hc
    have hvt : validateIndex t = .ok () := by
      simp [validateIndex, Nat.not_le.mpr ht]
    have hvf : validateIndex f = .ok () := by
      simp [validateIndex, Nat.not_le.mpr hf]
    cases hP : pieceAtOk b f <;> first
      | exact absurd hP hp
      | (cases hC : colorAtOk b f <;> first
          | exact absurd hC hc
          | (simp only [relocatePiece, hvt, hvf, hP, hC, piecesGet?,
               piecesSet?, colorsGet?, colorsSet?, Piece.idx, Color.idx]
             refine ⟨_, rfl, ?_, ?_, ?_, ?_⟩
             · simp [piecesList, Piece.idx, getBit_setBit_self ht]
             · intro hft
               simp [piecesList, Piece.idx, getBit_setBit_ne hft,
                 getBit_clearBit_self]
             · simp [colorBoard, getBit_setBit_self ht]
             · intro hft
               simp [colorBoard, getBit_setBit_ne hft,
                 getBit_clearBit_self]))
  · intro b f t h
    by_cases ht : 64 ≤ t
    · simp [relocatePiece, validateIndex, ht]
    · have hf : 64 ≤ f := by omega
      simp [relocatePiece, validateIndex, ht, hf]
  · intro b f t hf ht hP
    simp [relocatePiece, validateIndex, Nat.not_le.mpr hf,
      Nat.not_le.mpr ht, hP, piecesGet?, Piece.idx]

/-- Witness for C10: the three parts applied at concrete inputs on the
default board (rook A1 to A3; an out-of-range index; the empty square
20). -/
theorem c10_relocate_piece_totality_witness :
    ((0 : Nat) < 64 ∧ (16 : Nat) < 64
      ∧ pieceAtOk defaultBoard 0 ≠ Piece.NONE
      ∧ colorAtOk defaultBoard 0 ≠ Color.NONE
      ∧ pieceAtOk defaultBoard 20 = Piece.NONE)
  ∧ (∃ b2, relocatePiece defaultBoard 0 16 = some (.ok b2)
      ∧ getBit ((piecesList b2).getD (pieceAtOk defaultBoard 0).idx 0) 16
          = true
      ∧ ((0 : Nat) ≠ 16 →
          getBit ((piecesList b2).getD (pieceAtOk defaultBoard 0).idx 0) 0
            = false)
      ∧ getBit (colorBoard b2 (colorAtOk defaultBoard 0)) 16 = true
      ∧ ((0 : Nat) ≠ 16 →
          getBit (colorBoard b2 (colorAtOk defaultBoard 0)) 0 = false))
  ∧ relocatePiece defaultBoard 0 64
      = some (.error
          (GameError.ValidationError ("Board address out of range.")))
  ∧ relocatePiece defaultBoard 20 30 = none :=
  ⟨⟨by decide, by decide, by decide, by decide, by decide⟩,
   c10_relocate_piece_totality.1 defaultBoard 0 16 (by decide) (by decide)
     (by decide) (by decide),
   c10_relocate_piece_totality.2.1 defaultBoard 0 64
     (Or.inr (by decide)),
   c10_relocate_piece_totality.2.2 defaultBoard 20 30 (by decide)
     (by decide) (by decide)⟩

theorem getBit_lor {a b : BB} {j : Nat} :
    getBit (a ||| b) j = (getBit a j || getBit b j) := by
  by_cases hj : 64 ≤ j <;> simp [getBit, hj]

theorem getBit_two_pow_self {i : Nat} (h : i < 64) :
    getBit (2 ^ i) i = true := by
  simp [getBit, Nat.not_le.mpr h, Nat.testBit_two_pow_self]

theorem mem_getBits {b : BB} {j : Nat} :
    j ∈ getBits b ↔ j < 64 ∧ b.testBit j = true := by
  simp [getBits, List.mem_filter, List.mem_range, and_comm]

theorem getBit_populateRightGo_mono (block : BB) :
    ∀ (steps : Nat) (b : BB) (cur j : Nat), getBit b j = true →
      getBit (populateRightGo b cur steps block) j = true := by
  intro steps
  induction steps with
  | zero => intro b cur j h; simpa [populateRightGo] using h
  | succ s ih =>
    intro b cur j h
    have hset : getBit (setBit b cur) j = true := by
      by_cases hj : j = cur
      · subst hj
        by_cases h64 : 64 ≤ j
        · simp [getBit, h64] at h
        · exact getBit_setBit_self (Nat.not_le.mp h64)
      · rw [getBit_setBit_ne hj]; exact h
    simp only [populateRightGo]
    by_cases hstop : (getBit block cur || cur % 8 == 7) = true
    · simp [hstop, hset]
    · simp only [hstop, if_false, Bool.false_eq_true]
      exact ih _ _ j hset

theorem rayLeftGo_mem (block : BB) :
    ∀ (steps r s : Nat), r < 64 → s < r → r / 8 = s / 8 →
      r - s ≤ steps →
      (∀ j, s < j → j < r → getBit block j = false) →
      getBit (rayLeftGo r steps block) s = true := by
  intro steps
  induction steps with
  | zero => intro r s _ h1 _ h3 _; omega
  | succ st ih =>
    intro r s hr h1 h2 h3 h4
    have hrf : ¬r % 8 = 0 := by omega
    have hs64 : s < 64 := by omega
    simp only [rayLeftGo, if_neg hrf]
    by_cases hs : s = r - 1
    · subst hs
      by_cases hb : getBit block (r - 1) = true
      · simp [hb, getBit_two_pow_self hs64]
      · simp only [hb, Bool.false_eq_true, if_false, getBit_lor,
          getBit_two_pow_self hs64, Bool.true_or]
    · have hb : getBit block (r - 1) = false := h4 (r - 1) (by omega)
        (by omega)
      simp only [hb, Bool.false_eq_true, if_false, getBit_lor]
      have : getBit (rayLeftGo (r - 1) st block) s = true :=
        ih (r - 1) s (by omega) (by omega) (by omega) (by omega)
          (fun j hj1 hj2 => h4 j hj1 (by omega))
      simp [this]

theorem rayRightGo_mem (block : BB) :
    ∀ (steps r s : Nat), r < 64 → r < s → r / 8 = s / 8 →
      s - r ≤ steps →
      (∀ j, r < j → j < s → getBit block j = false) →
      getBit (rayRightGo r steps block) s = true := by
  intro steps
  induction steps with
  | zero => intro r s _ h1 _ h3 _; omega
  | succ st ih =>
    intro r s hr h1 h2 h3 h4
    have hrf : ¬r % 8 = 7 := by omega
    have hs64 : s < 64 := by omega
    simp only [rayRightGo, if_neg hrf]
    by_cases hs : s = r + 1
    · subst hs
      by_cases hb : getBit block (r + 1) = true
      · simp [hb, getBit_two_pow_self hs64]
      · simp only [hb, Bool.false_eq_true, if_false, getBit_lor,
          getBit_two_pow_self hs64, Bool.true_or]
    · have hb : getBit block (r + 1) = false := h4 (r + 1) (by omega)
        (by omega)
      simp only [hb, Bool.false_eq_true, if_false, getBit_lor]
      have : getBit (rayRightGo (r + 1) st block) s = true :=
        ih (r + 1) s (by omega) (by omega) (by omega) (by omega)
          (fun j hj1 hj2 => h4 j (by omega) hj2)
      simp [this]

/-- A square set in the kingside rook reach mask, provided the corridor
between king and rook is empty: the leftward walk from the rook covers
every square from the king (the first blocker) up to the rook. -/
theorem rookReach_left_corridor (b : ChessBoard) (color : Color)
    (k r s : Nat) (hr : r < 64) (hkr : k < r) (hrank : r / 8 = k / 8)
    (hempty : ∀ j, k < j → j < r → getBit (b.white ||| b.black) j = false)
    (hks : k ≤ s) (hsr : s < r) :
    getBit (getReachMask .ROOK r color (b.white ||| b.black) 0) s
      = true := by
  have hrf : ¬r % 8 = 0 := by omega
  have hsrank : r / 8 = s / 8 := by omega
  have hray : getBit (rayLeftGo r 7 (b.white ||| b.black)) s = true :=
    rayLeftGo_mem (b.white ||| b.black) 7 r s hr hsr hsrank (by omega)
      (fun j hj1 hj2 => hempty j (by omega) hj2)
  simp only [getReachMask, populateVertHor, populateRight]
  apply getBit_populateRightGo_mono
  rw [populateLeft, populateLeftGo_eq (b.white ||| b.black) 7 _ r hr hrf,
    getBit_lor, hray]
  simp

/-- A square set in the queenside rook reach mask under the mirrored
corridor hypotheses. -/
theorem rookReach_right_corridor (b : ChessBoard) (color : Color)
    (k r s : Nat) (hk : k < 64) (hkr : r < k) (hrank : r / 8 = k / 8)
    (hempty : ∀ j, r < j → j < k → getBit (b.white ||| b.black) j = false)
    (hrs : r < s) (hsk : s ≤ k) :
    getBit (getReachMask .ROOK r color (b.white ||| b.black) 0) s
      = true := by
  have hrf : ¬r % 8 = 7 := by omega
  have hr : r < 64 := by omega
  have hsrank : r / 8 = s / 8 := by omega
  have hray : getBit (rayRightGo r 7 (b.white ||| b.black)) s = true :=
    rayRightGo_mem (b.white ||| b.black) 7 r s hr hrs hsrank (by omega)
      (fun j hj1 hj2 => hempty j hj1 (by omega))
  simp only [getReachMask, populateVertHor, populateRight]
  rw [populateRightGo_eq (b.white ||| b.black) 7 _ r hr hrf, getBit_lor,
    hray]
  simp

/-- The common castling check fails as soon as one square of the rook
reach mask is attacked by the opponent. -/
theorem canCastleCommon_false_of_attacked (b : ChessBoard) (color : Color)
    (k r s : Nat) (hs64 : s < 64)
    (hreach : getBit (getReachMask .ROOK r color (b.white ||| b.black) 0)
        s = true)
    (hatk : getBit (getAttackMaskByColor b color.opponentColor) s
        = true) :
    canCastleCommon b color k r = false := by
  have hsmem : s ∈ getBits (getReachMask .ROOK r color
      (b.white ||| b.black) 0) := by
    rw [mem_getBits]
    refine ⟨hs64, ?_⟩
    simpa [getBit, Nat.not_le.mpr hs64] using hreach
  have hamem : s ∈ getBits (getAttackMaskByColor b color.opponentColor) :=
    by
    rw [mem_getBits]
    refine ⟨hs64, ?_⟩
    simpa [getBit, Nat.not_le.mpr hs64] using hatk
  simp only [canCastleCommon]
  by_cases hcont : (getBits (getReachMask .ROOK r color
      (b.white ||| b.black) 0)).contains k = true
  · simp only [hcont, Bool.not_true, Bool.false_eq_true, if_false]
    refine List.all_eq_false.mpr ⟨s, hsmem, ?_⟩
    have hsc : (getBits (getAttackMaskByColor
        b color.opponentColor)).contains s = true := by
      simpa [List.contains] using List.elem_eq_true_of_mem hamem
    simp [hsc]
    exact hamem
  · rw [Bool.not_eq_true] at hcont
    simp [hcont]
    exact fun _ => ⟨s, hsmem, hamem⟩

/-- C6 counterexample: the claim, as stated, fails on a Chess960-style
position: white king B1 (1), white rook C1 (2), white knight D1 (3),
black bishop C4 (26) and black king H8 (63).  The bishop attacks F1
(square 5, via D3 and E2), yet `can_castle_kingside(white)` is `true`,
because F1 is not among the rook reach cells the code checks. -/
def c960Board : ChessBoard where
  white := 2 ^ 1 ||| 2 ^ 2 ||| 2 ^ 3
  black := 2 ^ 26 ||| 2 ^ 63
  pawns := 0
  bishops := 2 ^ 26
  knights := 2 ^ 3
  rooks := 2 ^ 2
  queens := 0
  kings := 2 ^ 1 ||| 2 ^ 63

/-- C6 counterexample evaluation: F1 is attacked by the black bishop on
C4 (it lies in the bishop reach mask and in the black attack mask), but
white can still castle kingside according to the code. -/
theorem c6_castle_attack_counterexample :
    canCastleKingside c960Board Color.WHITE = true
    ∧ getBit (getAttackMaskByColor c960Board Color.BLACK) 5 = true
    ∧ getBit (getReachMask Piece.BISHOP 26 Color.BLACK
        (c960Board.white ||| c960Board.black) 0) 5 = true
    ∧ getBit c960Board.bishops 26 = true
    ∧ getBit c960Board.black 26 = true := by
  refine ⟨by decide, by decide, by decide, by decide, by decide⟩

/-- C6 (amended): `can_castle_kingside(color)` (and likewise
`can_castle_queenside`) returns false whenever some square of the
rook-king corridor (king square included, strictly between squares empty)
is attacked by the opponent, independently of the castling-rights flags;
but a position where F1 is attacked by a black bishop does not force
`can_castle_kingside(white) = false` when F1 lies outside the checked
rook corridor (see the Chess960-style counterexample). -/
theorem c6_castle_blocked_by_attack :
    (∀ (b : ChessBoard) (color : Color) (k r s : Nat),
       getKingsideRook b color = some (k, r) →
       r < 64 → k < r → r / 8 = k / 8 →
       (∀ j, k < j → j < r →
         getBit (b.white ||| b.black) j = false) →
       k ≤ s → s < r →
       getBit (getAttackMaskByColor b color.opponentColor) s = true →
       canCastleKingside b color = false)
  ∧ (∀ (b : ChessBoard) (color : Color) (k r s : Nat),
       getQueensideRook b color = some (k, r) →
       k < 64 → r < k → r / 8 = k / 8 →
       (∀ j, r < j → j < k →
         getBit (b.white ||| b.black) j = false) →
       r < s → s ≤ k →
       getBit (getAttackMaskByColor b color.opponentColor) s = true →
       canCastleQueenside b color = false) := by
  constructor
  · intro b color k r s hks hr hkr hrank hempty hs1 hs2 hatk
    have hreach := rookReach_left_corridor b color k r s hr hkr hrank
      hempty hs1 hs2
    have hfalse := canCastleCommon_false_of_attacked b color k r s
      (by omega) hreach hatk
    simp [canCastleKingside, hks, hfalse]
  · intro b color k r s hqs hk hkr hrank hempty hs1 hs2 hatk
    have hreach := rookReach_right_corridor b color k r s hk hkr hrank
      hempty hs1 hs2
    have hfalse := canCastleCommon_false_of_attacked b color k r s
      (by omega) hreach hatk
    simp [canCastleQueenside, hqs, hfalse]

/-- Witness board for C6: the standard-like white back rank with king E1,
rook H1, empty F1/G1, and a black rook on F8 attacking F1 down the open
f-file. -/
def castleWitnessBoard : ChessBoard where
  white := 2 ^ 4 ||| 2 ^ 7
  black := 2 ^ 61 ||| 2 ^ 63
  pawns := 0
  bishops := 0
  knights := 0
  rooks := 2 ^ 7 ||| 2 ^ 61
  queens := 0
  kings := 2 ^ 4 ||| 2 ^ 63

/-- Second witness board for C6 (queenside): white king E1, rook A1,
empty B1-D1, and a black rook on D8 attacking D1 down the open d-file. -/
def castleWitnessBoardQ : ChessBoard where
  white := 2 ^ 4 ||| 2 ^ 0
  black := 2 ^ 59 ||| 2 ^ 63
  pawns := 0
  bishops := 0
  knights := 0
  rooks := 2 ^ 0 ||| 2 ^ 59
  queens := 0
  kings := 2 ^ 4 ||| 2 ^ 63

/-- Witness for C6: both halves of the amended theorem applied at
concrete boards.  Kingside: F1 (5) lies in the E1-H1 corridor, is
attacked by the black rook on F8, and castling is refused.  Queenside:
D1 (3) lies in the A1-E1 corridor, is attacked by the black rook on D8,
and castling is refused. -/
theorem c6_castle_blocked_by_attack_witness :
    (getKingsideRook castleWitnessBoard Color.WHITE = some (4, 7)
      ∧ getBit (getAttackMaskByColor castleWitnessBoard Color.BLACK) 5
          = true)
  ∧ canCastleKingside castleWitnessBoard Color.WHITE = false
  ∧ (getQueensideRook castleWitnessBoardQ Color.WHITE = some (4, 0)
      ∧ getBit (getAttackMaskByColor castleWitnessBoardQ Color.BLACK) 3
          = true)
  ∧ canCastleQueenside castleWitnessBoardQ Color.WHITE = false := by
  refine ⟨⟨by decide, by decide⟩, ?_, ⟨by decide, by decide⟩, ?_⟩
  · exact c6_castle_blocked_by_attack.1 castleWitnessBoard Color.WHITE
      4 7 5 (by decide) (by decide) (by decide) (by decide)
      (by intro j h1 h2; interval_cases j <;> decide) (by decide)
      (by decide) (by decide)
  · exact c6_castle_blocked_by_attack.2 castleWitnessBoardQ Color.WHITE
      4 0 3 (by decide) (by decide) (by decide) (by decide)
      (by intro j h1 h2; interval_cases j <;> decide) (by decide)
      (by decide) (by decide)

/-- Splitting on a separator with the semantics of Rust `str::split`:
`n` separators yield `n + 1` pieces, empty pieces included. -/
def splitChar (sep : Char) : List Char → List (List Char)
  | [] => [[]]
  | c :: rest =>
    let r := splitChar sep rest
    if c = sep then [] :: r
    else
      match r with
      | [] => [[c]]
      | p :: ps => (c :: p) :: ps

/-- The decimal digit of a character in `0`..`9`, `Char::to_digit(10)`. -/
def charDigit? (c : Char) : Option Nat :=
  if 48 ≤ c.toNat ∧ c.toNat ≤ 57 then some (c.toNat - 48) else none

/-- ASCII alphabetic test (`is_ascii_alphabetic`). -/
def isAsciiAlpha (c : Char) : Bool :=
  (65 ≤ c.toNat && c.toNat ≤ 90) || (97 ≤ c.toNat && c.toNat ≤ 122)

/-- ASCII upper-casing (`to_ascii_uppercase`). -/
def asciiUpper (c : Char) : Char :=
  if 97 ≤ c.toNat ∧ c.toNat ≤ 122 then Char.ofNat (c.toNat - 32) else c

/-- The decimal digits of a `u8` value (`to_string` on `u8`). -/
def u8Str (n : Nat) : List Char :=
  if n < 10 then [Char.ofNat (48 + n)]
  else if n < 100 then [Char.ofNat (48 + n / 10), Char.ofNat (48 + n % 10)]
  else [Char.ofNat (48 + n / 100), Char.ofNat (48 + n / 10 % 10),
    Char.ofNat (48 + n % 10)]

/-- `u8::from_str` (`parse::<u8>()`): an optional leading plus sign, at
least one digit, everything a digit, and the value must fit in a `u8`. -/
def parseU8 (cs : List Char) : Except GameError Nat :=
  let ds := match cs with
    | c :: rest => if c = Char.ofNat 43 then rest else cs
    | [] => []
  if ds.isEmpty then .error (.ParseError ("cannot parse integer"))
  else if !(ds.all (fun c => (charDigit? c).isSome)) then
    .error (.ParseError ("invalid digit found in string"))
  else
    let value := ds.foldl (fun acc c => acc * 10 + (c.toNat - 48)) 0
    if 255 < value then .error (.ParseError ("number too large"))
    else .ok value

/-- `Position::as_str`: file letter `A`..`H` (uppercase) followed by the
rank digit `1`..`8`. -/
def positionChars (index : Nat) : List Char :=
  [Char.ofNat (65 + index % 8), Char.ofNat (49 + index / 8)]

/-- `TryFrom<String> for Position`: two characters, alphabetic file and
digit rank; the rank digit is decremented with `u8` wrap-around (so `0`
becomes 255 and fails the bounds check in release builds). -/
def positionFromChars (cs : List Char) : Except GameError Nat :=
  if cs.length ≠ 2 then
    .error (.DecodingError ("Position must be 2 characters long."))
  else
    let fileChar := cs.headD (Char.ofNat 0)
    let rankChar := (cs.drop 1).headD (Char.ofNat 0)
    if !(isAsciiAlpha fileChar) || !((charDigit? rankChar).isSome) then
      .error (.DecodingError ("Invalid position format."))
    else
      let file := (asciiUpper fileChar).toNat - 65
      let rank := (rankChar.toNat - 48 + 255) % 256
      if 7 < file ∨ 7 < rank then
        .error (.DecodingError ("Position out of bounds."))
      else .ok (rank * 8 + file)

/-- Modelled from the spec: `Piece::get_fen_letter` is missing from the
src snapshot of piece.rs (chess_board.rs calls it); spec §6.1 assigns
`P N B R Q K` to white and the lowercase letters to black. -/
def pieceFenLetter (p : Piece) (c : Color) : Char :=
  match p, c with
  | .PAWN, .WHITE => 'P'
  | .BISHOP, .WHITE => 'B'
  | .KNIGHT, .WHITE => 'N'
  | .ROOK, .WHITE => 'R'
  | .QUEEN, .WHITE => 'Q'
  | .KING, .WHITE => 'K'
  | .PAWN, _ => 'p'
  | .BISHOP, _ => 'b'
  | .KNIGHT, _ => 'n'
  | .ROOK, _ => 'r'
  | .QUEEN, _ => 'q'
  | .KING, _ => 'k'
  | .NONE, _ => '-'

/-- Modelled from the spec: `Piece::from_fen_letter` is missing from the
src snapshot of piece.rs (chess_board.rs calls it); the inverse of the
§6.1 letter table, anything else mapping to the `NONE` sentinels. -/
def pieceFromFenLetter (ch : Char) : Piece × Color :=
  if ch = 'P' then (.PAWN, .WHITE)
  else if ch = 'B' then (.BISHOP, .WHITE)
  else if ch = 'N' then (.KNIGHT, .WHITE)
  else if ch = 'R' then (.ROOK, .WHITE)
  else if ch = 'Q' then (.QUEEN, .WHITE)
  else if ch = 'K' then (.KING, .WHITE)
  else if ch = 'p' then (.PAWN, .BLACK)
  else if ch = 'b' then (.BISHOP, .BLACK)
  else if ch = 'n' then (.KNIGHT, .BLACK)
  else if ch = 'r' then (.ROOK, .BLACK)
  else if ch = 'q' then (.QUEEN, .BLACK)
  else if ch = 'k' then (.KING, .BLACK)
  else (.NONE, .NONE)

/-- Loop of `ChessBoard::to_fen_positions`: scan squares 63 down to 0,
building each rank right-to-left and reversing it at the rank border. -/
def toFenPositionsGo (b : ChessBoard) :
    List Nat → List Char → Nat → List Char → List Char
  | [], _, _, result => result
  | i :: rest, rowString, emptyCells, result =>
    let isEnd := i % 8 == 0
    let piece := pieceAtOk b i
    let color := colorAtOk b i
    if (piece = Piece.NONE ∨ color = Color.NONE) ∧ isEnd = false then
      toFenPositionsGo b rest rowString (emptyCells + 1) result
    else
      let hasPiece : Bool := !(piece == Piece.NONE) && !(color == Color.NONE)
      let e1 := if hasPiece then emptyCells else emptyCells + 1
      let row1 := if 0 < e1 then rowString ++ u8Str e1 else rowString
      let row2 := if hasPiece then row1 ++ [pieceFenLetter piece color]
        else row1
      if isEnd then
        toFenPositionsGo b rest [] 0
          (result ++ row2.reverse ++ (if i ≠ 0 then ['/'] else []))
      else
        toFenPositionsGo b rest row2 0 result

/-- `ChessBoard::to_fen_positions`. -/
def toFenPositions (b : ChessBoard) : List Char :=
  toFenPositionsGo b ((List.range 64).reverse) [] 0 []

/-- Character loop of `ChessBoard::from_fen_positions` for one rank
group. -/
def fromFenPositionsRow (board : ChessBoard) (row : Nat) (column : Nat) :
    List Char → Except GameError ChessBoard
  | [] => .ok board
  | ch :: rest =>
    match charDigit? ch with
    | some d => fromFenPositionsRow board row (column + d) rest
    | none =>
      if 8 ≤ column then
        .error (.DecodingError ("Invalid digit in FEN-String"))
      else
        let pc := pieceFromFenLetter ch
        if pc.1 = Piece.NONE then
          .error (.DecodingError ("Found invalid character in FEN-String"))
        else
          match placePiece board (row * 8 + column) pc.1 pc.2 with
          | .error e => .error e
          | .ok b2 => fromFenPositionsRow b2 row (column + 1) rest

/-- Rank loop of `ChessBoard::from_fen_positions` (the row index counts
every `/`-separated group, empty groups included). -/
def fromFenPositionsGo (board : ChessBoard) (rowIndex : Nat) :
    List (List Char) → Except GameError ChessBoard
  | [] => .ok board
  | fenRow :: rest =>
    if fenRow.isEmpty then fromFenPositionsGo board (rowIndex + 1) rest
    else if 8 ≤ rowIndex then
      .error (.DecodingError ("FEN-String included too many rows"))
    else
      match fromFenPositionsRow board (7 - rowIndex) 0 fenRow with
      | .error e => .error e
      | .ok b2 => fromFenPositionsGo b2 (rowIndex + 1) rest

/-- `ChessBoard::from_fen_positions`. -/
def fromFenPositions (fen : List Char) : Except GameError ChessBoard :=
  fromFenPositionsGo newEmptyBoard 0 (splitChar '/' fen)

/-- `GameState` (src/game/state.rs), with the per-color `[_; 2]` arrays
as pairs (white first).  The `winner`, `draw`, `resign` and `stalemate`
fields are modelled from the spec (data model §3): they are missing from
the src snapshot of state.rs but read and written by its callers in
entities/session.rs (`winner = 2` means no winner). -/
structure GameState where
  chess_board : ChessBoard
  next_to_move : Nat
  half_move_counter : Nat
  full_move_counter : Nat
  initial_pawn_masks : BB × BB
  available_moves : AvailableMoves × AvailableMoves
  check_states : Bool × Bool
  en_passant_indices : Nat × Nat
  kingside_castling_rights : Bool × Bool
  queenside_castling_rights : Bool × Bool
  can_castle_kingside : Bool × Bool
  can_castle_queenside : Bool × Bool
  king_indices : Nat × Nat
  kingside_rook_indices : Nat × Nat
  queenside_rook_indices : Nat × Nat
  winner : Nat
  draw : Bool
  resign : Bool
  stalemate : Bool
deriving DecidableEq, Repr

/-- `GameState::update_check_states`. -/
def updateCheckStates (st : GameState) : GameState :=
  { st with check_states :=
      (isKingCheck st.chess_board .WHITE, isKingCheck st.chess_board .BLACK) }

/-- `GameState::get_legal_moves`. -/
def GameState.getLegalMoves (st : GameState) (color : Color) :
    PRes AvailableMoves :=
  generateLegalMoves st.chess_board color
    (pairGet st.initial_pawn_masks color.idx) st.en_passant_indices
    st.kingside_castling_rights st.queenside_castling_rights

/-- `GameState::update_legal_moves`. -/
def updateLegalMoves (st : GameState) : PRes GameState :=
  pbind (st.getLegalMoves .WHITE) fun w =>
  pbind (st.getLegalMoves .BLACK) fun bl =>
  some (.ok { st with available_moves := (w, bl) })

/-- `GameState::update_castle_ability`. -/
def updateCastleAbility (st : GameState) : GameState :=
  { st with
    can_castle_kingside :=
      (st.kingside_castling_rights.1
          && canCastleKingside st.chess_board .WHITE,
        st.kingside_castling_rights.2
          && canCastleKingside st.chess_board .BLACK),
    can_castle_queenside :=
      (st.queenside_castling_rights.1
          && canCastleQueenside st.chess_board .WHITE,
        st.queenside_castling_rights.2
          && canCastleQueenside st.chess_board .BLACK) }

/-- Modelled from the spec: a side has no legal move when every cached
entry has an empty target list. -/
def noLegalMoves (am : AvailableMoves) : Bool :=
  am.all (fun p => p.2.isEmpty)

/-- Modelled from the spec: terminal detection, step 4 of
`GameState::update` (spec §4.4), missing from the src snapshot of
state.rs whose callers read `winner` and `draw`.  If the side to move has
no legal moves and is in check, the opponent wins; with no legal moves
and no check, the stalemate draw flag is set. -/
def updateTerminal (st : GameState) : GameState :=
  let side := st.next_to_move
  let moves := if side = 0 then st.available_moves.1
    else st.available_moves.2
  let check := if side = 0 then st.check_states.1 else st.check_states.2
  if noLegalMoves moves then
    if check then
      { st with winner := (colorFrom side).opponentColor.idx }
    else { st with draw := true, stalemate := true }
  else st

/-- `GameState::update`: check states, legal moves, castle ability (as in
the src state.rs), followed by the spec-modelled terminal detection. -/
def GameState.update (st : GameState) : PRes GameState :=
  pbind (updateLegalMoves (updateCheckStates st)) fun st2 =>
  some (.ok (updateTerminal (updateCastleAbility st2)))

/-- `GameState::clock` (`u8` counters wrap in release builds). -/
def GameState.clock (st : GameState) (captureOrPawnMove : Bool) :
    GameState :=
  let st1 := if colorFrom st.next_to_move = Color.BLACK then
      { st with full_move_counter := (st.full_move_counter + 1) % 256 }
    else st
  let st2 := if captureOrPawnMove then { st1 with half_move_counter := 0 }
    else { st1 with half_move_counter := (st1.half_move_counter + 1) % 256 }
  { st2 with next_to_move := if st2.next_to_move = 1 then 0 else 1 }

/-- Modelled from the spec: the pair-returning `ChessBoard::make_move`
that state.rs destructures (`let (success, capture_or_pawn_move) = ...`).
The src chess_board.rs returns only the success flag; the second
component is recomputed from the pre-move board following the spec clock
rule ("resets on captures or pawn moves"). -/
def makeMoveWithFlag (b : ChessBoard) (f t : Nat) (ep : Nat × Nat)
    (ksr qsr : Bool × Bool) :
    PRes (Bool × Bool × ChessBoard × (Nat × Nat) × (Bool × Bool) ×
      (Bool × Bool)) :=
  let captureOrPawnMove :=
    (pieceAtOk b f == Piece.PAWN) || !(pieceAtOk b t == Piece.NONE)
  pbind (makeMove b f t ep ksr qsr) fun r =>
  some (.ok (r.1, captureOrPawnMove, r.2))

/-- `GameState::make_move`. -/
def GameState.makeMove (st : GameState) (f t : Nat) :
    PRes (Bool × GameState) :=
  pbind (makeMoveWithFlag st.chess_board f t st.en_passant_indices
      st.kingside_castling_rights st.queenside_castling_rights) fun r =>
  let st1 := { st with
    chess_board := r.2.2.1,
    en_passant_indices := r.2.2.2.1,
    kingside_castling_rights := r.2.2.2.2.1,
    queenside_castling_rights := r.2.2.2.2.2 }
  if r.1 = false then some (.ok (false, st1))
  else
    pbind st1.update fun st2 =>
    some (.ok (true, st2.clock r.2.1))

/-- `GameState::castle_kingside` (session callers pass only `WHITE` or
`BLACK`). -/
def GameState.castleKingside (st : GameState) (color : Color) :
    PRes (Bool × GameState) :=
  if bpairGet st.can_castle_kingside color.idx = false then
    some (.ok (false, st))
  else
    pbind (boardCastleKingside st.chess_board
        (pairGet st.king_indices color.idx)
        (pairGet st.kingside_rook_indices color.idx)) fun b2 =>
    let st1 := { st with
      chess_board := b2,
      kingside_castling_rights :=
        bpairSet st.kingside_castling_rights color.idx false,
      queenside_castling_rights :=
        bpairSet st.queenside_castling_rights color.idx false }
    pbind st1.update fun st2 =>
    some (.ok (true, st2.clock false))

/-- `GameState::castle_queenside`. -/
def GameState.castleQueenside (st : GameState) (color : Color) :
    PRes (Bool × GameState) :=
  if bpairGet st.can_castle_queenside color.idx = false then
    some (.ok (false, st))
  else
    pbind (boardCastleQueenside st.chess_board
        (pairGet st.king_indices color.idx)
        (pairGet st.queenside_rook_indices color.idx)) fun b2 =>
    let st1 := { st with
      chess_board := b2,
      kingside_castling_rights :=
        bpairSet st.kingside_castling_rights color.idx false,
      queenside_castling_rights :=
        bpairSet st.queenside_castling_rights color.idx false }
    pbind st1.update fun st2 =>
    some (.ok (true, st2.clock false))

/-- `GameState::to_fen`.  The en-passant field reports the passive side's
target; `Position::try_from(cell).unwrap()` in the source would panic for
a cell above 64 that is not the 64 sentinel, which no engine-produced
state contains. -/
def GameState.toFen (st : GameState) : List Char :=
  let fenPositions := toFenPositions st.chess_board
  let colorToMove := colorFrom st.next_to_move
  let activeColor := colorToMove.getFenLetter
  let castlingRights :=
    (if st.kingside_castling_rights.1 then ['K'] else []) ++
    (if st.queenside_castling_rights.1 then ['Q'] else []) ++
    (if st.kingside_castling_rights.2 then ['k'] else []) ++
    (if st.queenside_castling_rights.2 then ['q'] else [])
  let castlingRights2 := if castlingRights.isEmpty then ['-']
    else castlingRights
  let enPassantCell :=
    pairGet st.en_passant_indices colorToMove.opponentColor.idx
  let enPassant := if enPassantCell = 64 then ['-']
    else positionChars enPassantCell
  fenPositions ++ [Char.ofNat 32] ++ [activeColor] ++ [Char.ofNat 32] ++
    castlingRights2 ++ [Char.ofNat 32] ++ enPassant ++ [Char.ofNat 32] ++
    u8Str st.half_move_counter ++ [Char.ofNat 32] ++
    u8Str st.full_move_counter

/-- `GameState::from_fen`: six space-separated fields, board placement,
active color, castling rights, en-passant target (assigned to the passive
side), clock counters; king and rook indices re-derived from the board;
the modelled `winner`/`draw`/`resign` fields start at their §4.4
construction values; finishes with `update()`. -/
def GameState.fromFen (fen : List Char) : PRes GameState :=
  let parts := splitChar (Char.ofNat 32) fen
  if parts.length ≠ 6 then
    some (.error (.DecodingError ("FEN-String needs 6 components")))
  else
    match fromFenPositions (parts.getD 0 []) with
    | .error e => some (.error e)
    | .ok chessBoard =>
      let activeChar := (parts.getD 1 []).headD (Char.ofNat 0)
      let activeColor := Color.fromFenLetter activeChar
      let whiteKingsideRight := (parts.getD 2 []).contains 'K'
      let whiteQueensideRight := (parts.getD 2 []).contains 'Q'
      let blackKingsideRight := (parts.getD 2 []).contains 'k'
      let blackQueensideRight := (parts.getD 2 []).contains 'q'
      let epPart := parts.getD 3 []
      let whiteEnPassant : Except GameError Nat :=
        if activeColor = Color.WHITE ∨ epPart = ['-'] then .ok 64
        else positionFromChars epPart
      let blackEnPassant : Except GameError Nat :=
        if activeColor = Color.BLACK ∨ epPart = ['-'] then .ok 64
        else positionFromChars epPart
      match whiteEnPassant, blackEnPassant with
      | .error e, _ => some (.error e)
      | _, .error e => some (.error e)
      | .ok whiteEp, .ok blackEp =>
        match parseU8 (parts.getD 4 []), parseU8 (parts.getD 5 []) with
        | .error e, _ => some (.error e)
        | _, .error e => some (.error e)
        | .ok halfMoveCounter, .ok fullMoveCounter =>
          let whiteKing := if whiteKingsideRight || whiteQueensideRight
            then getKingPositionByColor chessBoard .WHITE else 4
          let blackKing := if blackKingsideRight || blackQueensideRight
            then getKingPositionByColor chessBoard .BLACK else 60
          let whiteKingsideRook := if whiteKingsideRight then
              ((getKingsideRook chessBoard .WHITE).getD (4, 7)).2
            else 7
          let blackKingsideRook := if blackKingsideRight then
              ((getKingsideRook chessBoard .BLACK).getD (60, 63)).2
            else 63
          let whiteQueensideRook := if whiteQueensideRight then
              ((getQueensideRook chessBoard .WHITE).getD (4, 0)).2
            else 0
          let blackQueensideRook := if blackQueensideRight then
              ((getQueensideRook chessBoard .BLACK).getD (60, 56)).2
            else 56
          let st : GameState := {
            chess_board := chessBoard
            next_to_move := activeColor.idx
            half_move_counter := halfMoveCounter
            full_move_counter := fullMoveCounter
            initial_pawn_masks :=
              (0b0000000000000000000000000000000000000000000000001111111100000000,
               0b0000000011111111000000000000000000000000000000000000000000000000)
            available_moves := ([], [])
            check_states := (false, false)
            en_passant_indices := (whiteEp, blackEp)
            kingside_castling_rights :=
              (whiteKingsideRight, blackKingsideRight)
            queenside_castling_rights :=
              (whiteQueensideRight, blackQueensideRight)
            can_castle_kingside := (false, false)
            can_castle_queenside := (false, false)
            king_indices := (whiteKing, blackKing)
            kingside_rook_indices :=
              (whiteKingsideRook, blackKingsideRook)
            queenside_rook_indices :=
              (whiteQueensideRook, blackQueensideRook)
            winner := 2
            draw := false
            resign := false
            stalemate := false }
          st.update

/-- The stalemate scenario FEN of the spec (§8). -/
def stalemateFen : List Char := "7k/5Q2/6K1/8/8/8/8/8 b - - 0 1".data

/-- The en-passant scenario FEN of the spec (§8), used as round-trip
input. -/
def epFenInput : List Char :=
  "rnbqkbnr/ppp1pppp/8/3pP3/8/8/PPPP1PPP/RNBQKBNR w KQkq d6 0 3".data

/-- What the code actually re-serializes the en-passant scenario FEN to:
the en-passant square comes back with an uppercase file letter. -/
def epFenOutput : List Char :=
  "rnbqkbnr/ppp1pppp/8/3pP3/8/8/PPPP1PPP/RNBQKBNR w KQkq D6 0 3".data

/-- C2: evaluation of the code at the failing input.  Parsing the spec's
own en-passant FEN and re-serializing it yields `... w KQkq D6 0 3`, not
the input: `Position::as_str` emits the file letter uppercase (`b'A' +
file`), so `to_fen(from_fen(s)) != s` for every valid FEN with a non-`-`
en-passant field. -/
theorem c2_fen_round_trip_eval :
    pmap GameState.toFen (GameState.fromFen epFenInput)
      = some (.ok epFenOutput)
    ∧ epFenOutput ≠ epFenInput := by
  refine ⟨by decide, by decide⟩

/-- C1: the modelled terminal detection of `update()` declares the
opponent the winner when the side to move has no legal moves and is in
check, sets the stalemate draw flag when it has no legal moves and is not
in check, and in particular loading the spec's stalemate FEN produces a
state whose side to move (black) has no legal moves and no check, with
`draw = true` and `winner = 2`. -/
theorem c1_update_detects_terminal :
    (∀ st : GameState,
       noLegalMoves (if st.next_to_move = 0 then st.available_moves.1
         else st.available_moves.2) = true →
       ((if st.next_to_move = 0 then st.check_states.1
           else st.check_states.2) = true →
         (updateTerminal st).winner
             = (colorFrom st.next_to_move).opponentColor.idx
           ∧ (updateTerminal st).draw = st.draw)
       ∧ ((if st.next_to_move = 0 then st.check_states.1
           else st.check_states.2) = false →
         (updateTerminal st).draw = true
           ∧ (updateTerminal st).winner = st.winner))
  ∧ pmap (fun st => (noLegalMoves st.available_moves.2,
        st.check_states.2, st.draw, st.winner))
      (GameState.fromFen stalemateFen)
    = some (.ok (true, false, true, 2)) := by
  constructor
  · intro st hnm
    constructor
    · intro hchk
      simp [updateTerminal, hnm, hchk]
    · intro hchk
      simp [updateTerminal, hnm, hchk]
  · decide

/-- A hand-written state whose side to move (black) has an empty legal
move cache and no check; `updateTerminal` only reads these cached
fields. -/
def terminalWitnessState : GameState where
  chess_board := newEmptyBoard
  next_to_move := 1
  half_move_counter := 0
  full_move_counter := 1
  initial_pawn_masks := (0, 0)
  available_moves := ([], [(63, [])])
  check_states := (false, false)
  en_passant_indices := (64, 64)
  kingside_castling_rights := (false, false)
  queenside_castling_rights := (false, false)
  can_castle_kingside := (false, false)
  can_castle_queenside := (false, false)
  king_indices := (4, 60)
  kingside_rook_indices := (7, 63)
  queenside_rook_indices := (0, 56)
  winner := 2
  draw := false
  resign := false
  stalemate := false

/-- Witness for C1: the stalemate half of the terminal-detection rule
applied at the hand-written state, hypotheses discharged by
computation. -/
theorem c1_update_detects_terminal_witness :
    (noLegalMoves (if terminalWitnessState.next_to_move = 0 then
        terminalWitnessState.available_moves.1
      else terminalWitnessState.available_moves.2) = true
      ∧ (if terminalWitnessState.next_to_move = 0 then
          terminalWitnessState.check_states.1
        else terminalWitnessState.check_states.2) = false)
  ∧ ((updateTerminal terminalWitnessState).draw = true
      ∧ (updateTerminal terminalWitnessState).winner
          = terminalWitnessState.winner) :=
  ⟨⟨by decide, by decide⟩,
    (c1_update_detects_terminal.1 terminalWitnessState (by decide)).2
      (by decide)⟩

/-- The error type of the web layer (src/error.rs). -/
inductive ApiError where
  | AuthorizationError : String → ApiError
  | BadRequest : String → ApiError
  | DatabaseError : String → ApiError
  | NoPermission : String → ApiError
  | NotFound : String → ApiError
  | ParseError : String → ApiError
  | RateLimited : Nat → ApiError
  | SerializationError : String → ApiError
  | ServerError : String → ApiError
deriving DecidableEq, Repr

/-- `From<GameError> for ApiError` (src/error.rs). -/
def apiFromGameError : GameError → ApiError
  | .DecodingError m => .ParseError m
  | .EncodingError m => .ParseError m
  | .ParseError m => .ParseError m
  | .ValidationError m => .BadRequest m
  | .AiError m => .ServerError m

/-- `MoveQuery` (src/models/move_models.rs); the `from`/`to` fields are
named `fromSquare`/`toSquare` here because `from` is reserved. -/
structure MoveQuery where
  fromSquare : Option String
  toSquare : Option String
  castle_kingside : Option Bool
  castle_queenside : Option Bool

/-- `MoveQuery::convert_to_move`. -/
def convertToMove (q : MoveQuery) :
    Except ApiError (Nat × Nat × Bool × Bool) :=
  if q.castle_kingside = some true then .ok (0, 0, true, false)
  else if q.castle_queenside = some true then .ok (0, 0, false, true)
  else
    match q.fromSquare with
    | none =>
      .error (.BadRequest ("Move needs a specified starting cell"))
    | some fromStr =>
      match positionFromChars fromStr.data with
      | .error e => .error (apiFromGameError e)
      | .ok f =>
        match q.toSquare with
        | none =>
          .error (.BadRequest ("Move needs a specified destination cell"))
        | some toStr =>
          match positionFromChars toStr.data with
          | .error e => .error (apiFromGameError e)
          | .ok t => .ok (f, t, false, false)

/-- `Session` (src/entities/session.rs); the database id and timestamp
live in the external store and play no part in the engine contracts. -/
structure Session where
  name : String
  keys : String × String
  game_state : GameState

/-- `Session::is_finished`. -/
def Session.isFinished (s : Session) : Bool :=
  !(s.game_state.winner == 2) || s.game_state.draw

/-- `Session::get_color_from_key`. -/
def Session.getColorFromKey (s : Session) (key : String) : Option Color :=
  if key = s.keys.1 then some .WHITE
  else if key = s.keys.2 then some .BLACK
  else none

/-- `Session::can_move`. -/
def Session.canMove (s : Session) (key : String) : Bool :=
  if s.isFinished || !(key = s.keys.1 || key = s.keys.2 : Bool) then false
  else
    match s.getColorFromKey key with
    | none => false
    | some color => s.game_state.next_to_move == color.idx

/-- Modelled from the spec: `AvailableMoves::has_move`, whose impl is
missing from the src snapshot (session.rs calls it); spec §4.3: true iff
some entry with origin `from` contains `to`. -/
def hasMove (am : AvailableMoves) (f t : Nat) : Bool :=
  am.any (fun p => p.1 == f && p.2.contains t)

/-- `Session::is_move_possible`. -/
def Session.isMovePossible (s : Session) (key : String) (q : MoveQuery) :
    Except ApiError Bool :=
  match s.getColorFromKey key with
  | none => .ok false
  | some color =>
    match convertToMove q with
    | .error e => .error e
    | .ok (f, t, ks, qs) =>
      if ks ∧ qs then .ok false
      else if ks ∧ bpairGet s.game_state.can_castle_kingside color.idx
        then .ok true
      else if qs ∧ bpairGet s.game_state.can_castle_queenside color.idx
        then .ok true
      else if hasMove (if color.idx = 0 then s.game_state.available_moves.1
          else s.game_state.available_moves.2) f t then .ok true
      else .ok false

/-- `Session::resign`: fails on a finished game, otherwise sets the
winner to the opponent and the resign flag. -/
def Session.resign (s : Session) (color : Color) :
    Except ApiError Session :=
  if s.isFinished then .error (.BadRequest ("Game is already finished"))
  else .ok { s with game_state := { s.game_state with
    winner := color.opponentColor.idx, resign := true } }

/-- `Session::do_move`: the gate (`can_move`, `is_move_possible`), the
move dispatch (castles or `make_move`), and the trailing AI step.
`do_ai_move` invokes the external pleco search plus one bounded recursion
of `do_move`, so it is abstracted as the `ai` parameter; every property
proved below holds for every `ai`. -/
def Session.doMove (ai : Session → Except ApiError Session) (s : Session)
    (key : String) (q : MoveQuery) : Option (Except ApiError Session) :=
  if s.canMove key = false then
    some (.error (.BadRequest ("You cannot move in this game.")))
  else
    match s.isMovePossible key q with
    | .error e => some (.error e)
    | .ok possible =>
      if possible = false then
        some (.error (.BadRequest ("The given move is impossible.")))
      else
        match s.getColorFromKey key with
        | none =>
          some (.error (.BadRequest ("You cannot move in this game.")))
        | some color =>
          match convertToMove q with
          | .error e => some (.error e)
          | .ok (f, t, ks, qs) =>
            let moveResult : PRes (Bool × GameState) :=
              if ks then s.game_state.castleKingside color
              else if qs then s.game_state.castleQueenside color
              else s.game_state.makeMove f t
            match moveResult with
            | none => none
            | some (.error e) => some (.error (apiFromGameError e))
            | some (.ok (success, gs2)) =>
              if success = false then
                some (.error (.BadRequest ("Unable to play that move.")))
              else
                let s2 := { s with game_state := gs2 }
                match ai s2 with
                | .error _ => some (.error
                    (.ServerError
                      ("An error occured while playing the AI")))
                | .ok s3 => some (.ok s3)

/-- C3: `is_finished()` is exactly `winner != 2 || draw`, and it is true
precisely when every subsequent session call fails: a finished game makes
every `do_move` (normal move or castle, for any AI step) and every
`resign` return a `BadRequest` without producing a new state, while on an
unfinished game `resign` succeeds (so not all calls fail). -/
theorem c3_is_finished_gates_all_calls (s : Session) :
    (s.isFinished = true
      ↔ (s.game_state.winner ≠ 2 ∨ s.game_state.draw = true))
    ∧ (s.isFinished = true
      ↔ ((∀ (ai : Session → Except ApiError Session) (key : String)
            (q : MoveQuery),
            ∃ m, s.doMove ai key q = some (.error (.BadRequest m)))
          ∧ (∀ c : Color,
            ∃ m, s.resign c = .error (.BadRequest m)))) := by
  constructor
  · simp [Session.isFinished]
  · constructor
    · intro hfin
      constructor
      · intro ai key q
        have hcm : s.canMove key = false := by
          simp [Session.canMove, hfin]
        exact ⟨"You cannot move in this game.",
          by simp [Session.doMove, hcm]⟩
      · intro c
        exact ⟨"Game is already finished",
          by simp [Session.resign, hfin]⟩
    · intro h
      by_contra hfin
      have hfin2 : s.isFinished = false := by
        cases hx : s.isFinished
        · rfl
        · exact absurd hx hfin
      obtain ⟨m, hm⟩ := h.2 Color.WHITE
      simp [Session.resign, hfin2] at hm

/-- A finished session (white already declared the winner) for the C3
witness. -/
def finishedSession : Session where
  name := "game"
  keys := ("alpha", "beta")
  game_state := { terminalWitnessState with winner := 0 }

/-- Witness for C3: on the finished session, `is_finished` is true and
the theorem yields the failing `resign`. -/
theorem c3_is_finished_gates_all_calls_witness :
    finishedSession.isFinished = true
    ∧ (∃ m, finishedSession.resign Color.WHITE
        = .error (.BadRequest m)) :=
  ⟨by decide,
    ((c3_is_finished_gates_all_calls finishedSession).2.mp
      (by decide)).2 Color.WHITE⟩

end LemonChess
